import Mathlib

/-!
Verification of the mailing dispatch loop and template composer of the
wb_userbot repository (src/bot/background_tasks.py, src/bot/utils/func.py).

The Python code is shallowly embedded:
* Python `str` operations used by the code are modelled over `String`
  (`.strip()`, `.lstrip()`, `.lower()`, `.upper()`, `.capitalize()`,
  `str.format(item=...)`, `in`, `startswith`, `endswith`), with ASCII and
  Cyrillic case mapping.
* every call to `random.random() < p`, `random.choice`, `random.choices`,
  `random.uniform`, `random.randint` becomes an explicit oracle parameter,
  so theorems quantify over all draws.
* the current Moscow hour (`datetime.now`) becomes a parameter.
* the SQLAlchemy store becomes explicit lists of rows; a table is a list
  ordered by the autoincrement primary key `id`, so `ORDER BY id LIMIT n`
  is `List.take n` of the filtered list.
* telethon send errors become a `SendOutcome` oracle, and the sleeps and
  send attempts of the loop are recorded as an explicit `Event` trace.
-/

namespace WB

/-! ### Python string helpers -/

/-- The whitespace characters stripped by Python's `str.strip()`
(space, tab, newline, vertical tab, form feed, carriage return). -/
def isWS (c : Char) : Bool :=
  c.toNat == 32 || (9 ≤ c.toNat && c.toNat ≤ 13)

/-- `str.strip()` on the character list. -/
def pyStripList (l : List Char) : List Char :=
  ((l.dropWhile isWS).reverse.dropWhile isWS).reverse

/-- Python `s.strip()`. -/
def pyStrip (s : String) : String := ⟨pyStripList s.data⟩

/-- Python `s.lstrip()` (whitespace only). -/
def pyLstrip (s : String) : String := ⟨s.data.dropWhile isWS⟩

/-- Python `s.lstrip("@")`. -/
def pyLstripAt (s : String) : String := ⟨s.data.dropWhile (fun c => c == '@')⟩

/-- Case mapping to upper case for the alphabets the templates use
(ASCII `a`-`z` and Cyrillic `а`-`я`, `ё`). -/
def pyToUpper (c : Char) : Char :=
  if 97 ≤ c.toNat ∧ c.toNat ≤ 122 then Char.ofNat (c.toNat - 32)
  else if 1072 ≤ c.toNat ∧ c.toNat ≤ 1103 then Char.ofNat (c.toNat - 32)
  else if c.toNat = 1105 then Char.ofNat 1025
  else c

/-- Case mapping to lower case (ASCII `A`-`Z` and Cyrillic `А`-`Я`, `Ё`). -/
def pyToLower (c : Char) : Char :=
  if 65 ≤ c.toNat ∧ c.toNat ≤ 90 then Char.ofNat (c.toNat + 32)
  else if 1040 ≤ c.toNat ∧ c.toNat ≤ 1071 then Char.ofNat (c.toNat + 32)
  else if c.toNat = 1025 then Char.ofNat 1105
  else c

/-- Python `s.lower()`. -/
def pyLower (s : String) : String := ⟨s.data.map pyToLower⟩

/-- Python `s.capitalize()`: first character upper-cased, rest lower-cased. -/
def pyCapitalize (s : String) : String :=
  match s.data with
  | [] => ""
  | c :: cs => ⟨pyToUpper c :: cs.map pyToLower⟩

/-- `base_question[0].upper() + base_question[1:]` (on `""` Python
raises IndexError; the embedding totalises it to `""` — every theorem
that relies on this site carries the pool invariants under which the
indexed string is provably non-empty, see the second conjunct of the
C9 theorem). -/
def upFirst (s : String) : String :=
  match s.data with
  | [] => ""
  | c :: cs => ⟨pyToUpper c :: cs⟩

/-- `base_question[0].lower() + base_question[1:]`. -/
def lowFirst (s : String) : String :=
  match s.data with
  | [] => ""
  | c :: cs => ⟨pyToLower c :: cs⟩

/-- Python `s.endswith((".", "!", "?"))`. -/
def endsWithPunct (s : String) : Bool :=
  match s.data.getLast? with
  | some c => c == '.' || c == '!' || c == '?'
  | none => false

/-- Outcome of one replacement field of `template.format(item=item)`:
the field `item` substitutes the keyword argument; an empty field is
Python's IndexError (automatic numbering with no positional arguments),
a numeric field its IndexError (index out of range), any other field
name a KeyError. A field that names `item` but carries a conversion,
format spec or access (`item!r`, `item:>10`, `item[0]`) is outside this
embedding and mapped to an error conservatively; no theorem below
depends on such templates. -/
def formatField (item field : List Char) : Except String (List Char) :=
  if field = ['i', 't', 'e', 'm'] then Except.ok item
  else if field.isEmpty then
    Except.error "IndexError: automatic field numbering needs positional arguments"
  else if field.all Char.isDigit then
    Except.error "IndexError: replacement index out of range"
  else if List.isPrefixOf ['i', 't', 'e', 'm'] field then
    Except.error "unmodelled: conversion, spec or access on the item field"
  else Except.error "KeyError: unknown field name in format string"

/-- The scan of `str.format`: literal mode (`none`) copies characters,
recognises the doubled-brace escapes, raises Python's ValueError on a
lone closing brace, and enters field mode on an opening brace; field
mode (`some field`, the characters read so far, reversed) collects the
replacement field up to the closing brace and raises ValueError when
the template ends inside a field. -/
def pyFormatScan (item : List Char) :
    Option (List Char) → List Char → Except String (List Char)
  | none, [] => Except.ok []
  | none, '\x7b' :: '\x7b' :: rest =>
      Except.map (fun l => '\x7b' :: l) (pyFormatScan item none rest)
  | none, '\x7d' :: '\x7d' :: rest =>
      Except.map (fun l => '\x7d' :: l) (pyFormatScan item none rest)
  | none, '\x7d' :: _ =>
      Except.error "ValueError: single closing brace in format string"
  | none, '\x7b' :: rest => pyFormatScan item (some []) rest
  | none, c :: rest =>
      Except.map (fun l => c :: l) (pyFormatScan item none rest)
  | some _, [] =>
      Except.error "ValueError: single opening brace in format string"
  | some field, '\x7d' :: rest =>
      match formatField item field.reverse with
      | Except.error e => Except.error e
      | Except.ok piece =>
        Except.map (fun l => piece ++ l) (pyFormatScan item none rest)
  | some field, c :: rest => pyFormatScan item (some (c :: field)) rest

/-- Python `template.format(item=item)` for the `clarifying_texts`
templates: substitution of the `item` field, or the exception
`str.format` raises. -/
def pyFormat (template item : String) : Except String String :=
  Except.map (fun l => String.mk l) (pyFormatScan item.data none template.data)

/-- Templates on which `str.format(item=...)` returns normally in this
embedding: braces occur only as the doubled-brace escapes or as the
plain `{item}` field. -/
def TemplateWF : List Char → Bool
  | '\x7b' :: '\x7b' :: rest => TemplateWF rest
  | '\x7d' :: '\x7d' :: rest => TemplateWF rest
  | '\x7b' :: 'i' :: 't' :: 'e' :: 'm' :: '\x7d' :: rest => TemplateWF rest
  | '\x7b' :: _ => false
  | '\x7d' :: _ => false
  | _ :: rest => TemplateWF rest
  | [] => true

/-- Python substring test `pat in l` on character lists. -/
def containsSubAux (pat : List Char) : List Char → Bool
  | [] => pat.isEmpty
  | c :: rest => pat.isPrefixOf (c :: rest) || containsSubAux pat rest

/-- Python `pat in s`. -/
def containsSub (s pat : String) : Bool := containsSubAux pat.data s.data

/-- Python `s.startswith(p)`. -/
def strStartsWith (s p : String) : Bool := List.isPrefixOf p.data s.data

/-! ### Text pools (bot/utils/func.py `TextPools`)

`build_text_pools` fills each pool with the `text` column of the
corresponding table, keeping only non-empty strings and stripping them
(`_fetch_texts`). -/

structure TextPools where
  greetings_morning : List String
  greetings_day : List String
  greetings_evening : List String
  greetings_night : List String
  greetings_anytime : List String
  clarifying_texts : List String
  follow_up_texts : List String
  lead_in_texts : List String
  closing_texts : List String
deriving Repr, DecidableEq

/-- The invariant `_fetch_texts` establishes for every pool entry:
non-empty and fixed by `strip()`. -/
def StrWF (s : String) : Prop := s ≠ "" ∧ pyStrip s = s

instance : DecidablePred StrWF := fun s => by
  unfold StrWF
  infer_instance

/-- All nine pools only hold `_fetch_texts`-normalised strings. -/
def PoolsWF (tp : TextPools) : Prop :=
  (∀ s ∈ tp.greetings_morning, StrWF s) ∧ (∀ s ∈ tp.greetings_day, StrWF s) ∧
  (∀ s ∈ tp.greetings_evening, StrWF s) ∧ (∀ s ∈ tp.greetings_night, StrWF s) ∧
  (∀ s ∈ tp.greetings_anytime, StrWF s) ∧ (∀ s ∈ tp.clarifying_texts, StrWF s) ∧
  (∀ s ∈ tp.follow_up_texts, StrWF s) ∧ (∀ s ∈ tp.lead_in_texts, StrWF s) ∧
  (∀ s ∈ tp.closing_texts, StrWF s)

instance : DecidablePred PoolsWF := fun tp => by
  unfold PoolsWF
  infer_instance

/-! ### Composer randomness

One field per call the composer makes into `random`; pool picks are an
arbitrary index reduced modulo the pool size (`random.choice`), coins
stand for `random.random() < p` tests, and `hour` is
`datetime.now(Moscow).hour`. -/

structure ComposerRand where
  hour : Nat
  mixAnytime : Bool
  greetIdx : Nat
  greetPunct : Nat
  leadInIdx : Nat
  questionIdx : Nat
  followIdx : Nat
  closingIdx : Nat
  closingPunctCoin : Bool
  followPunctCoin : Bool
  splitGreeting : Bool
  useFollowCoin : Bool
  splitFollow : Bool
  closingOnlyCoin : Bool
deriving Repr, DecidableEq

/-- `random.choice(pool)` with the draw supplied as an index. -/
def pickFrom (pool : List String) (i : Nat) : String :=
  pool.getD (i % pool.length) ""

/-- Python `a or b` on lists. -/
def pyOrPool (a b : List String) : List String := if a.isEmpty then b else a

/-- The time-of-day pool chosen by `_pick_greeting`. -/
def basePoolFor (hour : Nat) (tp : TextPools) : List String :=
  if 5 ≤ hour ∧ hour < 12 then tp.greetings_morning
  else if 12 ≤ hour ∧ hour < 18 then tp.greetings_day
  else if 18 ≤ hour ∧ hour < 23 then tp.greetings_evening
  else tp.greetings_night

/-- The `anytime or morning or day or evening or night` fallback chain. -/
def greetingFallback (tp : TextPools) : List String :=
  pyOrPool tp.greetings_anytime (pyOrPool tp.greetings_morning
    (pyOrPool tp.greetings_day (pyOrPool tp.greetings_evening tp.greetings_night)))

/-- The pool `_pick_greeting` draws from: the time-based pool, with a
25% chance of mixing in the anytime pool, then the `or` fallbacks. -/
def greetingPoolOf (r : ComposerRand) (tp : TextPools) : List String :=
  let base_pool := basePoolFor r.hour tp
  let pool :=
    if r.mixAnytime ∧ ¬tp.greetings_anytime.isEmpty
    then base_pool ++ tp.greetings_anytime
    else pyOrPool base_pool tp.greetings_anytime
  if pool.isEmpty then greetingFallback tp else pool

/-- `_pick_greeting` (bot/utils/func.py): error when every greeting pool
is empty; otherwise a random pool entry, capitalised. -/
def _pick_greeting (r : ComposerRand) (tp : TextPools) : Except String String :=
  if (greetingPoolOf r tp).isEmpty then
    Except.error ("В AccountTexts нет доступных приветствий.")
  else Except.ok (pyCapitalize (pickFrom (greetingPoolOf r tp) r.greetIdx))

/-- `_with_punctuation(text, mark=".", probability=0.3)`: append a dot
unless the text already ends in punctuation; the probabilistic decision
is the coin. -/
def withPunctuation (text : String) (coin : Bool) : String :=
  if text = "" then ""
  else if endsWithPunct text then text
  else if coin then text ++ "." else text

/-- `random.choices(["", "!", "."], weights=[0.35, 0.45, 0.2])`. -/
def punctChoices : List String := ["", "!", "."]

/-- `_format_greeting`: the greeting with a randomly chosen punctuation
mark, stripped, plus the `has_punct` flag. -/
def formatGreeting (greeting_text : String) (punctIdx : Nat) : String × Bool :=
  let punct := punctChoices.getD (punctIdx % 3) ""
  (pyStrip (greeting_text ++ punct),
    punct == "!" || punct == "." || punct == "?")

/-- `item_name.strip() or "товар"`. -/
def itemOf (item_name : String) : String :=
  if pyStrip item_name = "" then "товар" else pyStrip item_name

/-- The lead-in suppression prefixes of `randomize_text_message`. -/
def askPrefixes : List String :=
  ["расскажите", "подскажите", "скажите", "интересуюсь", "интересует",
   "можно", "уточните", "хочу уточнить", "я хочу", "я хотела"]

/-- Gratitude keywords tested against the follow-up. -/
def gratitudeKwsFollow : List String := ["благодар", "признател", "рада", "спасибо"]

/-- Gratitude keywords tested against the closing. -/
def gratitudeKwsClosing : List String := ["благодар", "признател", "спасибо", "рада"]

/-- The intermediate strings `randomize_text_message` computes before
assembling the message list. -/
structure ComposeParts where
  greetingFormatted : String
  greetingHasPunct : Bool
  baseQuestion : String
  baseQuestionInline : String
  followUp : String
  closing : String
  followSentence : String
deriving Repr, DecidableEq

/-! The locals of `randomize_text_message` (bot/utils/func.py lines
154-237), one definition per local, in source order. -/

/-- `lead_in = random.choice(lead_in_texts) if lead_in_texts else ""`. -/
def leadIn0Of (tp : TextPools) (r : ComposerRand) : String :=
  if tp.lead_in_texts.isEmpty then "" else pickFrom tp.lead_in_texts r.leadInIdx

/-- `question = random.choice(clarifying_texts).format(item=item)`;
`str.format` may raise (KeyError, IndexError, ValueError), and that
exception escapes the composer. -/
def questionOf (item_name : String) (tp : TextPools) (r : ComposerRand) :
    Except String String :=
  pyFormat (pickFrom tp.clarifying_texts r.questionIdx) (itemOf item_name)

/-- `lead_in` after the tautology suppression against
`question.lstrip().lower()`. -/
def leadInOf (tp : TextPools) (r : ComposerRand) (question : String) : String :=
  if askPrefixes.any
      (fun p => strStartsWith (pyLower (pyLstrip question)) p)
  then "" else leadIn0Of tp r

/-- `follow_up = random.choice(follow_up_texts) if follow_up_texts else ""`. -/
def followUpOf (tp : TextPools) (r : ComposerRand) : String :=
  if tp.follow_up_texts.isEmpty then "" else pickFrom tp.follow_up_texts r.followIdx

/-- `closing_choice = random.choice(closing_texts) if closing_texts else ""`. -/
def closingChoiceOf (tp : TextPools) (r : ComposerRand) : String :=
  if tp.closing_texts.isEmpty then "" else pickFrom tp.closing_texts r.closingIdx

/-- `closing` after punctuation and the gratitude de-duplication against
`follow_up`. -/
def closingOf (tp : TextPools) (r : ComposerRand) : String :=
  let closing_choice := closingChoiceOf tp r
  let closing0 :=
    if closing_choice = "" then ""
    else withPunctuation (pyCapitalize closing_choice) r.closingPunctCoin
  if gratitudeKwsFollow.any
      (fun kw => containsSub (pyLower (followUpOf tp r)) kw) ∧
     closing_choice ≠ "" ∧
     gratitudeKwsClosing.any
      (fun kw => containsSub (pyLower closing_choice) kw)
  then "" else closing0

/-- `base_question = (lead_in + question) upper-cased on the first char`. -/
def baseQuestionOf (tp : TextPools) (r : ComposerRand) (question : String) : String :=
  upFirst (leadInOf tp r question ++ question)

/-- `base_question_inline`, lower-cased when the greeting carries no
punctuation mark. -/
def baseQuestionInlineOf (tp : TextPools) (r : ComposerRand)
    (greeting question : String) : String :=
  if (formatGreeting greeting r.greetPunct).2 = false ∧
      baseQuestionOf tp r question ≠ ""
  then lowFirst (baseQuestionOf tp r question)
  else baseQuestionOf tp r question

/-- `follow_sentence`, the follow-up with punctuation, with the closing
appended when present. -/
def followSentenceOf (tp : TextPools) (r : ComposerRand) : String :=
  let follow_sentence0 := withPunctuation (pyCapitalize (followUpOf tp r)) r.followPunctCoin
  if closingOf tp r ≠ "" then pyStrip (follow_sentence0 ++ " " ++ closingOf tp r)
  else follow_sentence0

/-- The straight-line prefix of `randomize_text_message`
(bot/utils/func.py lines 154-237): pick greeting, lead-in, question
(whose `str.format` exception propagates), follow-up and closing, apply
the tautology and gratitude suppressions, and format the greeting and
question variants. -/
def composeParts (item_name : String) (tp : TextPools) (r : ComposerRand) :
    Except String ComposeParts :=
  match _pick_greeting r tp with
  | Except.error e => Except.error e
  | Except.ok greeting =>
    if tp.clarifying_texts.isEmpty then
      Except.error ("В AccountTexts нет уточняющих текстов.")
    else
      match questionOf item_name tp r with
      | Except.error e => Except.error e
      | Except.ok question =>
        Except.ok
          { greetingFormatted := (formatGreeting greeting r.greetPunct).1
            greetingHasPunct := (formatGreeting greeting r.greetPunct).2
            baseQuestion := baseQuestionOf tp r question
            baseQuestionInline := baseQuestionInlineOf tp r greeting question
            followUp := followUpOf tp r
            closing := closingOf tp r
            followSentence := followSentenceOf tp r }

/-- `messages[-1] = messages[-1] + suffix`. -/
def appendLast (ms : List String) (suffix : String) : List String :=
  match ms with
  | [] => []
  | [m] => [m ++ suffix]
  | m :: rest => m :: appendLast rest suffix

/-- The message-assembly suffix of `randomize_text_message`
(bot/utils/func.py lines 239-258). -/
def buildMessages (p : ComposeParts) (r : ComposerRand) : List String :=
  let ms :=
    if r.splitGreeting then [p.greetingFormatted, p.baseQuestion]
    else [pyStrip (p.greetingFormatted ++ " " ++ p.baseQuestionInline)]
  if p.followUp ≠ "" ∧ r.useFollowCoin then
    if r.splitFollow then ms ++ [p.followSentence]
    else appendLast ms (" " ++ p.followSentence)
  else if p.closing ≠ "" ∧ r.closingOnlyCoin then
    appendLast ms (" " ++ p.closing)
  else ms

/-- `messages if len(messages) > 1 else messages[0]`. -/
inductive ComposerResult
  | single (s : String)
  | multi (l : List String)
deriving Repr, DecidableEq

/-- `randomize_text_message` (bot/utils/func.py): composes the parts and
returns one string, or the list when it holds more than one message. -/
def randomize_text_message (item_name : String) (tp : TextPools) (r : ComposerRand) :
    Except String ComposerResult :=
  match composeParts item_name tp r with
  | Except.error e => Except.error e
  | Except.ok p =>
    let ms := buildMessages p r
    Except.ok (if ms.length > 1 then ComposerResult.multi ms
               else ComposerResult.single (ms.headD ""))

/-! ### Store rows (bot/db/models.py)

Tables are lists ordered by the autoincrement primary key `id`; nullable
string columns are `""` when NULL. -/

structure UsernameRow where
  id : Nat
  account_id : Nat
  username : String
  item_name : String
  sended : Bool
deriving Repr, DecidableEq

structure AccountRow where
  id : Nat
  name : String
  phone : String
  is_started : Bool
  is_connected : Bool
  batch_size : Nat
deriving Repr, DecidableEq

structure JobRow where
  account_id : Nat
  name : String
  answer : String
deriving Repr, DecidableEq

/-- The slice of the store `mailing` reads and writes for one account:
the account row, its `Username` rows, its `Job` rows, and whether an
`AccountTexts` row exists (with the pools `build_text_pools` loads from
it). The Redis `account_id` lookup is modelled as resolving to this
account. -/
structure MailDB where
  account : AccountRow
  usernames : List UsernameRow
  jobs : List JobRow
  textsConfigured : Bool
  pools : TextPools
deriving Repr, DecidableEq

/-! ### Transport outcomes (telethon errors of bot/background_tasks.py) -/

inductive UnreachableKind
  | privacy        -- UserPrivacyRestrictedError
  | blocked        -- UserIsBlockedError
  | deactivated    -- UserDeactivatedError
  | deactivatedBan -- UserDeactivatedBanError
  | writeForbidden -- ChatWriteForbiddenError
deriving Repr, DecidableEq

/-- What one `send_message_safe` call does: return, or raise one of the
classified telethon errors, or raise an unclassified exception. -/
inductive SendOutcome
  | success
  | floodWait (seconds : Nat) -- FloodWaitError(seconds)
  | peerFlood                 -- PeerFloodError
  | invalidPeer               -- PeerIdInvalidError / UsernameInvalidError
  | unreachable (k : UnreachableKind)
  | unknown                   -- any other Exception
deriving Repr, DecidableEq

/-- Trace of the observable actions of the dispatch loop: every sleep
with its second range and every send attempt, tagged with the 1-based
batch position `idx`. -/
inductive Event
  | sleepBase (idx lo hi : Nat)      -- random.uniform(*base_delay)
  | sendAttempt (idx attempt : Nat)  -- send_message_safe call
  | sleepFlood (idx seconds jitter : Nat) -- FloodWait: sleep seconds+jitter
  | sleepRetry (idx attempt : Nat)   -- random.uniform(2.0, 5.0)
  | sleepCooldown (idx lo hi : Nat)  -- random.uniform(*cooldown_range)
deriving Repr, DecidableEq

/-- Randomness and transport behaviour for one `mailing` invocation:
`outcome idx attempt` is what the send raises at batch position `idx`,
attempt `attempt`; `floodJit idx attempt` the raw draw behind
`random.randint(3, 12)`; `rand idx` the composer draws. -/
structure MailOracle where
  outcome : Nat → Nat → SendOutcome
  floodJit : Nat → Nat → Nat
  rand : Nat → ComposerRand

/-- `random.randint(3, 12)` from a raw draw. -/
def jitterOf (raw : Nat) : Nat := 3 + raw % 10

/-- The constants of `mailing`'s signature, as invoked by
`set_tasks` (bot/__main__.py) with the default keyword values. -/
def max_send_attempts : Nat := 3
def base_delay : Nat × Nat := (6, 12)
def cooldown_every : Nat := 2
def cooldown_range : Nat × Nat := (45, 120)

/-- Result of the inner `while attempt < max_send_attempts` retry loop
for one recipient: the loop flags plus the trace of attempts and sleeps.
`markSent` records the `sended=True` update the unreachable branch
commits inside the loop. -/
structure AttemptResult where
  success : Bool
  skipDeletion : Bool
  stopMailing : Bool
  markSent : Bool
  events : List Event
deriving Repr, DecidableEq

/-- The retry loop (bot/background_tasks.py lines 259-330). `fuel` is
`max_send_attempts - attempt`, the iterations the guard still allows. -/
def attemptLoop (o : Nat → SendOutcome) (jit : Nat → Nat) (idx : Nat) :
    Nat → Nat → AttemptResult
  | 0, _ => ⟨false, false, false, false, []⟩
  | fuel + 1, attempt =>
    let a := attempt + 1
    match o a with
    | SendOutcome.success =>
        ⟨true, false, false, false, [Event.sendAttempt idx a]⟩
    | SendOutcome.floodWait n =>
        ⟨false, true, false, false,
          [Event.sendAttempt idx a, Event.sleepFlood idx n (jitterOf (jit a))]⟩
    | SendOutcome.peerFlood =>
        ⟨false, false, true, false, [Event.sendAttempt idx a]⟩
    | SendOutcome.invalidPeer =>
        ⟨false, false, false, false, [Event.sendAttempt idx a]⟩
    | SendOutcome.unreachable _ =>
        ⟨false, true, false, true, [Event.sendAttempt idx a]⟩
    | SendOutcome.unknown =>
      match fuel with
      | 0 => ⟨false, false, false, false, [Event.sendAttempt idx a]⟩
      | fuel2 + 1 =>
        let r := attemptLoop o jit idx (fuel2 + 1) a
        ⟨r.success, r.skipDeletion, r.stopMailing, r.markSent,
          Event.sendAttempt idx a :: Event.sleepRetry idx a :: r.events⟩

/-- `_normalize_username` (bot/background_tasks.py). -/
def _normalize_username (username : String) : String :=
  pyLstripAt (pyStrip username)

/-- `_is_valid_username`: full match of `^[A-Za-z0-9_]{5,32}$`. -/
def _is_valid_username (username : String) : Bool :=
  5 ≤ username.length && username.length ≤ 32 &&
    username.data.all (fun c => c.isAlphanum || c == '_')

/-- `UPDATE usernames SET sended=true WHERE id = uid`. -/
def markSentDb (rows : List UsernameRow) (uid : Nat) : List UsernameRow :=
  rows.map (fun u => if u.id = uid then { u with sended := true } else u)

/-- `DELETE FROM usernames WHERE id = uid`. -/
def deleteDb (rows : List UsernameRow) (uid : Nat) : List UsernameRow :=
  rows.filter (fun u => u.id ≠ uid)

/-- The columns `mailing` selects per recipient. -/
structure Target where
  id : Nat
  username : String
  item_name : String
deriving Repr, DecidableEq

/-- Effect of the loop body on one recipient. -/
structure StepResult where
  usernames : List UsernameRow
  events : List Event
  sentInc : Nat
  stop : Bool
  err : Option String
deriving Repr, DecidableEq

/-- One iteration of the `for idx, username_row in enumerate(targets, start=1)`
loop (bot/background_tasks.py lines 232-360): username validation and
deletion, composition (whose ValueError propagates as `err`), base
delay, the retry loop, the per-outcome row update, and the cooldown
pause every `cooldown_every` completed recipients. -/
def processTarget (ora : MailOracle) (pools : TextPools)
    (rows : List UsernameRow) (idx : Nat) (t : Target) : StepResult :=
  let uname := _normalize_username t.username
  if _is_valid_username uname = false then
    { usernames := deleteDb rows t.id, events := [], sentInc := 0,
      stop := false, err := none }
  else
    match randomize_text_message t.item_name pools (ora.rand idx) with
    | Except.error e =>
      { usernames := rows, events := [], sentInc := 0, stop := false, err := some e }
    | Except.ok _ =>
      let ev0 := [Event.sleepBase idx base_delay.1 base_delay.2]
      let ar := attemptLoop (ora.outcome idx) (ora.floodJit idx) idx max_send_attempts 0
      let rows1 := if ar.markSent then markSentDb rows t.id else rows
      if ar.stopMailing then
        { usernames := rows1, events := ev0 ++ ar.events, sentInc := 0,
          stop := true, err := none }
      else
        let rows2 :=
          if ar.success then markSentDb rows1 t.id
          else if ar.skipDeletion = false then deleteDb rows1 t.id
          else rows1
        let sentInc := if ar.success then 1 else 0
        if ar.skipDeletion ∧ ar.success = false then
          { usernames := rows2, events := ev0 ++ ar.events, sentInc := sentInc,
            stop := false, err := none }
        else
          let evC :=
            if idx % cooldown_every = 0 then
              [Event.sleepCooldown idx cooldown_range.1 cooldown_range.2]
            else []
          { usernames := rows2, events := ev0 ++ ar.events ++ evC,
            sentInc := sentInc, stop := false, err := none }

/-- The whole dispatch loop over the selected targets. Stops early when
a step sets `stop` (PeerFlood) and when composition raises (`err`). -/
def runTargets (ora : MailOracle) (pools : TextPools) :
    Nat → List Target → List UsernameRow →
    List UsernameRow × List Event × Nat × Option String
  | _, [], rows => (rows, [], 0, none)
  | idx, t :: rest, rows =>
    let s := processTarget ora pools rows idx t
    match s.err with
    | some e => (s.usernames, s.events, s.sentInc, some e)
    | none =>
      if s.stop then (s.usernames, s.events, s.sentInc, none)
      else
        let r := runTargets ora pools (idx + 1) rest s.usernames
        (r.1, s.events ++ r.2.1, s.sentInc + r.2.2.1, r.2.2.2)

/-- The `SELECT id, username, item_name FROM usernames WHERE NOT sended
AND account_id = ? ORDER BY id LIMIT batch_size` of `mailing`; the row
list is ordered by `id`, so the limit is a `take`. -/
def selectTargets (db : MailDB) : List Target :=
  ((db.usernames.filter
      (fun u => u.sended = false && u.account_id == db.account.id)).take
    db.account.batch_size).map
    (fun u => { id := u.id, username := u.username, item_name := u.item_name })

/-- `_account_label`: `account.name or account.phone or "неизвестный аккаунт"`. -/
def _account_label (a : AccountRow) : String :=
  if a.name ≠ "" then a.name else if a.phone ≠ "" then a.phone
  else "неизвестный аккаунт"

/-- `_build_stop_payload`: the notification text stored in the Job row. -/
def _build_stop_payload (a : AccountRow) : String :=
  "Аккаунт " ++ _account_label a ++ ": пользователи закончились, бот остановлен."

/-- `account.is_started = False` plus `session.add(Job(...))`. -/
def stopAndNotify (db : MailDB) : MailDB :=
  { db with
      account := { db.account with is_started := false }
      jobs := db.jobs ++
        [{ account_id := db.account.id, name := "account_notification",
           answer := _build_stop_payload db.account }] }

/-- The `SELECT ... WHERE NOT sended AND account_id = ? LIMIT 1` check
after the batch. -/
def pendingRemaining (rows : List UsernameRow) (aid : Nat) : Bool :=
  rows.any (fun u => u.sended = false && u.account_id == aid)

/-- Result of one `mailing` invocation: the updated store, the event
trace, the `sent` counter, and the exception that escaped the job, if
any. -/
structure MailResult where
  db : MailDB
  events : List Event
  sent : Nat
  err : Option String
deriving Repr, DecidableEq

/-- The tail of `mailing` after the dispatch loop: store the updated
rows, propagate an escaped exception, and otherwise stop-and-notify
when nothing is pending any more. -/
def mailingFinish (db : MailDB)
    (r : List UsernameRow × List Event × Nat × Option String) : MailResult :=
  match r.2.2.2 with
  | some e => ⟨{ db with usernames := r.1 }, r.2.1, r.2.2.1, some e⟩
  | none =>
    if pendingRemaining r.1 db.account.id then
      ⟨{ db with usernames := r.1 }, r.2.1, r.2.2.1, none⟩
    else ⟨stopAndNotify { db with usernames := r.1 }, r.2.1, r.2.2.1, none⟩

/-- `mailing` (bot/background_tasks.py lines 160-382): guard on
`is_started`/`is_connected`, guard on configured texts, select the
batch, stop-and-notify when it is empty, run the dispatch loop, and
stop-and-notify when nothing is pending afterwards. -/
def mailing (ora : MailOracle) (db : MailDB) : MailResult :=
  if db.account.is_started = false ∨ db.account.is_connected = false then
    ⟨db, [], 0, none⟩
  else if db.textsConfigured = false then ⟨db, [], 0, none⟩
  else if (selectTargets db).isEmpty then ⟨stopAndNotify db, [], 0, none⟩
  else mailingFinish db (runTargets ora db.pools 1 (selectTargets db) db.usernames)

/-! ### Helper lemmas: whitespace, case mapping and ink

`Ink s` says some character of `s` is not whitespace; it is what
survives every `strip()` the composer performs, and is the invariant
behind the non-emptiness of the produced messages. -/

theorem toNat_ofNat_lt {n : Nat} (h : n < 55296) : (Char.ofNat n).toNat = n := by
  have hv : n.isValidChar := Or.inl h
  simp [Char.ofNat, hv, Char.ofNatAux, Char.toNat, UInt32.toNat]

theorem isWS_false_iff {c : Char} :
    isWS c = false ↔ (c.toNat ≠ 32 ∧ ¬(9 ≤ c.toNat ∧ c.toNat ≤ 13)) := by
  simp [isWS]

theorem isWS_pyToUpper_false {c : Char} (h : isWS c = false) :
    isWS (pyToUpper c) = false := by
  unfold pyToUpper
  split
  · rw [isWS_false_iff, toNat_ofNat_lt (by omega)]
    omega
  · split
    · rw [isWS_false_iff, toNat_ofNat_lt (by omega)]
      omega
    · split
      · rw [isWS_false_iff, toNat_ofNat_lt (by omega)]
        omega
      · exact h

theorem isWS_pyToLower_false {c : Char} (h : isWS c = false) :
    isWS (pyToLower c) = false := by
  unfold pyToLower
  split
  · rw [isWS_false_iff, toNat_ofNat_lt (by omega)]
    omega
  · split
    · rw [isWS_false_iff, toNat_ofNat_lt (by omega)]
      omega
    · split
      · rw [isWS_false_iff, toNat_ofNat_lt (by omega)]
        omega
      · exact h

/-- A character list with at least one non-whitespace character. -/
def InkL (l : List Char) : Prop := ∃ c ∈ l, isWS c = false

instance : DecidablePred InkL := fun l => by
  unfold InkL
  infer_instance

/-- A string with at least one non-whitespace character. -/
def Ink (s : String) : Prop := InkL s.data

instance : DecidablePred Ink := fun s => by
  unfold Ink
  infer_instance

theorem inkL_dropWhile {p : Char → Bool} {l : List Char}
    (h : ∃ c ∈ l, p c = false) : ∃ c ∈ l.dropWhile p, p c = false := by
  induction l with
  | nil => simp at h
  | cons a t ih =>
    by_cases hp : p a
    · rw [List.dropWhile_cons_of_pos hp]
      obtain ⟨c, hc, hcp⟩ := h
      rcases List.mem_cons.mp hc with rfl | h2
      · exact absurd hp (by simp [hcp])
      · exact ih ⟨c, h2, hcp⟩
    · rw [List.dropWhile_cons_of_neg hp]
      exact ⟨a, List.mem_cons_self .., by simpa using hp⟩

theorem inkL_reverse {l : List Char} (h : InkL l) : InkL l.reverse := by
  obtain ⟨c, hc, hcp⟩ := h
  exact ⟨c, List.mem_reverse.mpr hc, hcp⟩

theorem inkL_pyStripList {l : List Char} (h : InkL l) : InkL (pyStripList l) :=
  inkL_reverse (inkL_dropWhile (inkL_reverse (inkL_dropWhile h)))

theorem inkL_ne_nil {l : List Char} (h : InkL l) : l ≠ [] := by
  obtain ⟨c, hc, -⟩ := h
  exact List.ne_nil_of_mem hc

theorem inkL_of_stripFixed {l : List Char} (hf : pyStripList l = l) (hne : l ≠ []) :
    InkL l := by
  by_contra h
  apply hne
  have hall : ∀ c ∈ l, isWS c = true := by
    intro c hc
    by_contra hw
    exact h ⟨c, hc, by simpa using hw⟩
  have h1 : l.dropWhile isWS = [] := List.dropWhile_eq_nil_iff.mpr hall
  rw [← hf]
  simp [pyStripList, h1]

theorem inkL_append_left {l m : List Char} (h : InkL l) : InkL (l ++ m) := by
  obtain ⟨c, hc, hcp⟩ := h
  exact ⟨c, List.mem_append_left _ hc, hcp⟩

theorem inkL_append_right {l m : List Char} (h : InkL m) : InkL (l ++ m) := by
  obtain ⟨c, hc, hcp⟩ := h
  exact ⟨c, List.mem_append_right _ hc, hcp⟩

theorem string_eq_empty_iff {s : String} : s = "" ↔ s.data = [] := by
  cases s
  simp [String.ext_iff]

theorem data_append (s t : String) : (s ++ t).data = s.data ++ t.data :=
  String.data_append ..

theorem ink_append_left {s t : String} (h : Ink s) : Ink (s ++ t) := by
  rw [Ink, data_append]
  exact inkL_append_left h

theorem ink_append_right {s t : String} (h : Ink t) : Ink (s ++ t) := by
  rw [Ink, data_append]
  exact inkL_append_right h

theorem ink_ne_empty {s : String} (h : Ink s) : s ≠ "" := by
  intro h2
  exact inkL_ne_nil h (string_eq_empty_iff.mp h2)

theorem ink_pyStrip {s : String} (h : Ink s) : Ink (pyStrip s) :=
  inkL_pyStripList h

theorem ink_pyStrip_ne_empty {s : String} (h : Ink s) : pyStrip s ≠ "" :=
  ink_ne_empty (ink_pyStrip h)

theorem not_ink_pyStrip_empty {s : String} (h : ¬Ink s) : pyStrip s = "" := by
  have hall : ∀ c ∈ s.data, isWS c = true := by
    intro c hc
    by_contra hw
    exact h ⟨c, hc, by simpa using hw⟩
  have h1 : s.data.dropWhile isWS = [] := List.dropWhile_eq_nil_iff.mpr hall
  rw [string_eq_empty_iff]
  simp [pyStrip, pyStripList, h1]

theorem ink_of_pyStrip_ne_empty {s : String} (h : pyStrip s ≠ "") : Ink s := by
  by_contra hn
  exact h (not_ink_pyStrip_empty hn)

theorem strWF_ink {s : String} (h : StrWF s) : Ink s := by
  obtain ⟨hne, hf⟩ := h
  refine inkL_of_stripFixed ?_ ?_
  · have := congrArg String.data hf
    simpa [pyStrip] using this
  · intro h2
    exact hne (string_eq_empty_iff.mpr h2)

theorem ink_pyCapitalize {s : String} (h : Ink s) : Ink (pyCapitalize s) := by
  unfold Ink InkL at h ⊢
  unfold pyCapitalize
  cases hd : s.data with
  | nil => rw [hd] at h; simp at h
  | cons c cs =>
    rw [hd] at h
    obtain ⟨x, hx, hxw⟩ := h
    rcases List.mem_cons.mp hx with rfl | hmem
    · exact ⟨pyToUpper x, List.mem_cons_self .., isWS_pyToUpper_false hxw⟩
    · exact ⟨pyToLower x,
        List.mem_cons_of_mem _ (List.mem_map_of_mem _ hmem),
        isWS_pyToLower_false hxw⟩

theorem ink_upFirst {s : String} (h : Ink s) : Ink (upFirst s) := by
  unfold Ink InkL at h ⊢
  unfold upFirst
  cases hd : s.data with
  | nil => rw [hd] at h; simp at h
  | cons c cs =>
    rw [hd] at h
    obtain ⟨x, hx, hxw⟩ := h
    rcases List.mem_cons.mp hx with rfl | hmem
    · exact ⟨pyToUpper x, List.mem_cons_self .., isWS_pyToUpper_false hxw⟩
    · exact ⟨x, List.mem_cons_of_mem _ hmem, hxw⟩

theorem ink_lowFirst {s : String} (h : Ink s) : Ink (lowFirst s) := by
  unfold Ink InkL at h ⊢
  unfold lowFirst
  cases hd : s.data with
  | nil => rw [hd] at h; simp at h
  | cons c cs =>
    rw [hd] at h
    obtain ⟨x, hx, hxw⟩ := h
    rcases List.mem_cons.mp hx with rfl | hmem
    · exact ⟨pyToLower x, List.mem_cons_self .., isWS_pyToLower_false hxw⟩
    · exact ⟨x, List.mem_cons_of_mem _ hmem, hxw⟩

theorem not_ink_empty : ¬Ink "" := by
  simp [Ink, InkL]

theorem ink_withPunctuation {t : String} (h : Ink t) (coin : Bool) :
    Ink (withPunctuation t coin) := by
  unfold withPunctuation
  split
  · next he => rw [he] at h; exact absurd h not_ink_empty
  · split
    · exact h
    · split
      · exact ink_append_left h
      · exact h

/-! ### Lemmas about the `str.format` model -/

theorem formatField_ok {item field piece : List Char}
    (h : formatField item field = Except.ok piece) : piece = item := by
  unfold formatField at h
  split at h
  · cases h
    rfl
  · split at h
    · cases h
    · split at h
      · cases h
      · split at h
        · cases h
        · cases h

/-- On a well-formed template `str.format` substitutes and returns. -/
theorem templateWF_format_ok (item : List Char) :
    ∀ l : List Char, TemplateWF l = true →
      ∃ out, pyFormatScan item none l = Except.ok out := by
  intro l
  induction l using TemplateWF.induct with
  | case1 rest ih =>
    intro h
    rw [TemplateWF] at h
    obtain ⟨out, hout⟩ := ih h
    exact ⟨'\x7b' :: out, by rw [pyFormatScan.eq_2, hout]; rfl⟩
  | case2 rest ih =>
    intro h
    rw [TemplateWF] at h
    obtain ⟨out, hout⟩ := ih h
    exact ⟨'\x7d' :: out, by rw [pyFormatScan.eq_3, hout]; rfl⟩
  | case3 rest ih =>
    intro h
    rw [TemplateWF] at h
    obtain ⟨out, hout⟩ := ih h
    refine ⟨item ++ out, ?_⟩
    simp [pyFormatScan, formatField, hout, Except.map]
  | case4 tail h1 h2 =>
    intro h
    rw [TemplateWF.eq_4 tail h1 h2] at h
    cases h
  | case5 tail h1 =>
    intro h
    rw [TemplateWF.eq_5 tail h1] at h
    cases h
  | case6 head rest h1 h2 h3 h4 h5 ih =>
    intro h
    rw [TemplateWF.eq_6 head rest h1 h2 h3 h4 h5] at h
    obtain ⟨out, hout⟩ := ih h
    refine ⟨head :: out, ?_⟩
    rw [pyFormatScan.eq_6 item head rest h1 h2 h5 h4, hout]
    rfl
  | case7 =>
    intro h
    exact ⟨[], rfl⟩

/-- A successful format output inherits ink from the substituted item
(field mode) or from the literal characters (copy mode). -/
theorem ink_pyFormatScan {item : List Char} (hitem : InkL item) :
    ∀ (mode : Option (List Char)) (l : List Char) (out : List Char),
      pyFormatScan item mode l = Except.ok out →
      (InkL l ∨ mode ≠ none) → InkL out := by
  intro mode l
  induction mode, l using pyFormatScan.induct item with
  | case1 =>
    intro out hout hink
    simp [InkL] at hink
  | case2 rest ih =>
    intro out hout hink
    rw [pyFormatScan.eq_2] at hout
    cases hrec : pyFormatScan item none rest with
    | error e =>
      rw [hrec] at hout
      cases hout
    | ok o =>
      rw [hrec] at hout
      simp [Except.map] at hout
      subst hout
      exact ⟨'\x7b', List.mem_cons_self .., by decide⟩
  | case3 rest ih =>
    intro out hout hink
    rw [pyFormatScan.eq_3] at hout
    cases hrec : pyFormatScan item none rest with
    | error e =>
      rw [hrec] at hout
      cases hout
    | ok o =>
      rw [hrec] at hout
      simp [Except.map] at hout
      subst hout
      exact ⟨'\x7d', List.mem_cons_self .., by decide⟩
  | case4 tail hcond =>
    intro out hout hink
    rw [pyFormatScan.eq_4 item tail hcond] at hout
    cases hout
  | case5 rest hcond ih =>
    intro out hout hink
    rw [pyFormatScan.eq_5 item rest hcond] at hout
    exact ih out hout (Or.inr (by simp))
  | case6 c rest h1 h2 h3 h4 ih =>
    intro out hout hink
    rw [pyFormatScan.eq_6 item c rest h1 h2 h3 h4] at hout
    cases hrec : pyFormatScan item none rest with
    | error e =>
      rw [hrec] at hout
      cases hout
    | ok o =>
      rw [hrec] at hout
      simp [Except.map] at hout
      subst hout
      by_cases hws : isWS c = false
      · exact ⟨c, List.mem_cons_self .., hws⟩
      · rcases hink with hink | hne
        · obtain ⟨x, hx, hxw⟩ := hink
          rcases List.mem_cons.mp hx with rfl | hmem
          · exact absurd hxw (by simpa using hws)
          · obtain ⟨y, hy, hyw⟩ := ih o hrec (Or.inl ⟨x, hmem, hxw⟩)
            exact ⟨y, List.mem_cons_of_mem _ hy, hyw⟩
        · exact absurd rfl hne
  | case7 field =>
    intro out hout hink
    cases hout
  | case8 field rest e hferr =>
    intro out hout hink
    rw [pyFormatScan.eq_8, hferr] at hout
    cases hout
  | case9 field rest piece hfok ih =>
    intro out hout hink
    rw [pyFormatScan.eq_8, hfok] at hout
    cases hrec : pyFormatScan item none rest with
    | error e =>
      rw [hrec] at hout
      cases hout
    | ok o =>
      rw [hrec] at hout
      simp [Except.map] at hout
      subst hout
      rw [formatField_ok hfok]
      obtain ⟨c, hc, hcw⟩ := hitem
      exact ⟨c, List.mem_append_left _ hc, hcw⟩
  | case10 field c rest hcond ih =>
    intro out hout hink
    rw [pyFormatScan.eq_9 item field c rest hcond] at hout
    exact ih out hout (Or.inr (by simp))

/-- String level: a well-formed template formats successfully. -/
theorem pyFormat_ok_of_WF {template : String} (item : String)
    (h : TemplateWF template.data = true) :
    ∃ q, pyFormat template item = Except.ok q := by
  obtain ⟨out, hout⟩ := templateWF_format_ok item.data template.data h
  exact ⟨⟨out⟩, by rw [pyFormat, hout]; rfl⟩

/-- String level: a successful format output has ink when the item and
template do. -/
theorem ink_pyFormat {template item q : String}
    (h : pyFormat template item = Except.ok q) (hitem : Ink item)
    (htem : Ink template) : Ink q := by
  unfold pyFormat at h
  cases haux : pyFormatScan item.data none template.data with
  | error e =>
    rw [haux] at h
    cases h
  | ok out =>
    rw [haux] at h
    simp [Except.map] at h
    subst h
    exact ink_pyFormatScan hitem none template.data out haux (Or.inl htem)

/-! ### Composer lemmas -/

theorem pickFrom_mem {pool : List String} (h : pool.isEmpty = false) (i : Nat) :
    pickFrom pool i ∈ pool := by
  have hne : pool ≠ [] := by simpa using h
  have hl : 0 < pool.length := List.length_pos.mpr hne
  have hm : i % pool.length < pool.length := Nat.mod_lt _ hl
  rw [pickFrom, List.getD_eq_getElem _ _ hm]
  exact List.getElem_mem ..

/-- Membership in any of the five greeting pools. -/
def GreetPoolMem (tp : TextPools) (s : String) : Prop :=
  s ∈ tp.greetings_morning ∨ s ∈ tp.greetings_day ∨ s ∈ tp.greetings_evening ∨
    s ∈ tp.greetings_night ∨ s ∈ tp.greetings_anytime

theorem mem_pyOrPool {x : String} {a b : List String} (h : x ∈ pyOrPool a b) :
    x ∈ a ∨ x ∈ b := by
  unfold pyOrPool at h
  split at h
  · exact Or.inr h
  · exact Or.inl h

theorem mem_basePoolFor {x : String} {hour : Nat} {tp : TextPools}
    (h : x ∈ basePoolFor hour tp) : GreetPoolMem tp x := by
  unfold basePoolFor at h
  unfold GreetPoolMem
  split at h
  · exact Or.inl h
  · split at h
    · exact Or.inr (Or.inl h)
    · split at h
      · exact Or.inr (Or.inr (Or.inl h))
      · exact Or.inr (Or.inr (Or.inr (Or.inl h)))

theorem mem_greetingFallback {x : String} {tp : TextPools}
    (h : x ∈ greetingFallback tp) : GreetPoolMem tp x := by
  unfold greetingFallback at h
  unfold GreetPoolMem
  rcases mem_pyOrPool h with h1 | h1
  · exact Or.inr (Or.inr (Or.inr (Or.inr h1)))
  · rcases mem_pyOrPool h1 with h2 | h2
    · exact Or.inl h2
    · rcases mem_pyOrPool h2 with h3 | h3
      · exact Or.inr (Or.inl h3)
      · rcases mem_pyOrPool h3 with h4 | h4
        · exact Or.inr (Or.inr (Or.inl h4))
        · exact Or.inr (Or.inr (Or.inr (Or.inl h4)))

theorem mem_greetingPoolOf {x : String} {r : ComposerRand} {tp : TextPools}
    (h : x ∈ greetingPoolOf r tp) : GreetPoolMem tp x := by
  unfold greetingPoolOf at h
  simp only [] at h
  split at h
  · split at h
    · exact mem_greetingFallback h
    · rcases List.mem_append.mp h with h1 | h1
      · exact mem_basePoolFor h1
      · exact Or.inr (Or.inr (Or.inr (Or.inr h1)))
  · split at h
    · exact mem_greetingFallback h
    · rcases mem_pyOrPool h with h1 | h1
      · exact mem_basePoolFor h1
      · exact Or.inr (Or.inr (Or.inr (Or.inr h1)))

theorem pick_greeting_ok {r : ComposerRand} {tp : TextPools} {g : String}
    (h : _pick_greeting r tp = Except.ok g) :
    ∃ s, GreetPoolMem tp s ∧ g = pyCapitalize s := by
  unfold _pick_greeting at h
  split at h
  · cases h
  · next hne =>
    rw [Except.ok.injEq] at h
    subst h
    exact ⟨_, mem_greetingPoolOf (pickFrom_mem (by simpa using hne) r.greetIdx), rfl⟩

theorem strWF_of_greetPoolMem {tp : TextPools} {s : String} (hWF : PoolsWF tp)
    (h : GreetPoolMem tp s) : StrWF s := by
  obtain ⟨h1, h2, h3, h4, h5, -⟩ := hWF
  rcases h with h | h | h | h | h
  exacts [h1 _ h, h2 _ h, h3 _ h, h4 _ h, h5 _ h]

theorem ink_itemOf (item_name : String) : Ink (itemOf item_name) := by
  unfold itemOf
  split
  · decide
  · next h => exact ink_pyStrip (ink_of_pyStrip_ne_empty h)

theorem ink_questionOf {item_name : String} {tp : TextPools} {r : ComposerRand}
    {q : String} (hWF : PoolsWF tp) (hc : tp.clarifying_texts.isEmpty = false)
    (hq : questionOf item_name tp r = Except.ok q) : Ink q := by
  have htem : StrWF (pickFrom tp.clarifying_texts r.questionIdx) :=
    hWF.2.2.2.2.2.1 _ (pickFrom_mem hc _)
  exact ink_pyFormat hq (ink_itemOf item_name) (strWF_ink htem)

theorem ink_baseQuestionOf {tp : TextPools} {r : ComposerRand} {q : String}
    (hq : Ink q) : Ink (baseQuestionOf tp r q) := by
  unfold baseQuestionOf
  exact ink_upFirst (ink_append_right hq)

theorem ink_baseQuestionInlineOf {tp : TextPools} {r : ComposerRand}
    {greeting q : String} (hq : Ink q) :
    Ink (baseQuestionInlineOf tp r greeting q) := by
  unfold baseQuestionInlineOf
  split
  · exact ink_lowFirst (ink_baseQuestionOf hq)
  · exact ink_baseQuestionOf hq

theorem ink_greetingFormatted {r : ComposerRand} {tp : TextPools} {g : String}
    (hWF : PoolsWF tp) (h : _pick_greeting r tp = Except.ok g) :
    Ink (formatGreeting g r.greetPunct).1 := by
  obtain ⟨s, hmem, rfl⟩ := pick_greeting_ok h
  have hs : StrWF s := strWF_of_greetPoolMem hWF hmem
  simp only [formatGreeting]
  exact ink_pyStrip (ink_append_left (ink_pyCapitalize (strWF_ink hs)))

theorem mem_followUpOf {tp : TextPools} {r : ComposerRand}
    (h : followUpOf tp r ≠ "") : followUpOf tp r ∈ tp.follow_up_texts := by
  unfold followUpOf at h ⊢
  by_cases he : tp.follow_up_texts.isEmpty = true
  · rw [if_pos he] at h
    exact absurd rfl h
  · rw [if_neg he]
    exact pickFrom_mem (by simpa using he) _

theorem ink_followSentenceOf {tp : TextPools} {r : ComposerRand}
    (hWF : PoolsWF tp) (hfu : followUpOf tp r ≠ "") :
    Ink (followSentenceOf tp r) := by
  have hink : Ink (followUpOf tp r) :=
    strWF_ink (hWF.2.2.2.2.2.2.1 _ (mem_followUpOf hfu))
  unfold followSentenceOf
  split
  · exact ink_pyStrip (ink_append_left
      (ink_append_left (ink_withPunctuation (ink_pyCapitalize hink) _)))
  · exact ink_withPunctuation (ink_pyCapitalize hink) _

theorem composeParts_ok_elim {item_name : String} {tp : TextPools}
    {r : ComposerRand} {p : ComposeParts}
    (h : composeParts item_name tp r = Except.ok p) :
    ∃ greeting question, _pick_greeting r tp = Except.ok greeting ∧
      tp.clarifying_texts.isEmpty = false ∧
      questionOf item_name tp r = Except.ok question ∧
      p = { greetingFormatted := (formatGreeting greeting r.greetPunct).1
            greetingHasPunct := (formatGreeting greeting r.greetPunct).2
            baseQuestion := baseQuestionOf tp r question
            baseQuestionInline := baseQuestionInlineOf tp r greeting question
            followUp := followUpOf tp r
            closing := closingOf tp r
            followSentence := followSentenceOf tp r } := by
  unfold composeParts at h
  cases hg : _pick_greeting r tp with
  | error e => rw [hg] at h; cases h
  | ok greeting =>
    rw [hg] at h
    simp only [] at h
    split at h
    · cases h
    · next hc =>
      cases hq : questionOf item_name tp r with
      | error e => rw [hq] at h; cases h
      | ok question =>
        rw [hq] at h
        rw [Except.ok.injEq] at h
        exact ⟨greeting, question, rfl, by simpa using hc, rfl, h.symm⟩

/-- Every intermediate string the message assembly appends has ink, and
hence survives the strips of the assembly non-empty. -/
theorem composeParts_ink {item_name : String} {tp : TextPools} {r : ComposerRand}
    {p : ComposeParts} (hWF : PoolsWF tp)
    (h : composeParts item_name tp r = Except.ok p) :
    Ink p.greetingFormatted ∧ Ink p.baseQuestion ∧ Ink p.baseQuestionInline ∧
      (p.followUp ≠ "" → Ink p.followSentence) := by
  obtain ⟨g, q, hg, hc, hq, rfl⟩ := composeParts_ok_elim h
  have hqi : Ink q := ink_questionOf hWF hc hq
  exact ⟨ink_greetingFormatted hWF hg, ink_baseQuestionOf hqi,
    ink_baseQuestionInlineOf hqi, fun hfu => ink_followSentenceOf hWF hfu⟩

theorem append_ne_empty_left {s t : String} (h : s ≠ "") : s ++ t ≠ "" := by
  intro h2
  rw [string_eq_empty_iff, data_append, List.append_eq_nil] at h2
  exact h (string_eq_empty_iff.mpr h2.1)

/-- C1 (amended: a split output has 2 or 3 parts, not always exactly 2).
For every subject term and every set of text pools as built by
`build_text_pools` on which it does not raise, `randomize_text_message`
returns either one string or a list of exactly 2 or 3 strings, every
returned string is non-empty, and when the output is split across
several strings their concatenation order is greeting first, then the
question, then the follow-up. -/
theorem claim_C1 {item_name : String} {tp : TextPools} {r : ComposerRand}
    {res : ComposerResult} (hWF : PoolsWF tp)
    (h : randomize_text_message item_name tp r = Except.ok res) :
    ∃ p, composeParts item_name tp r = Except.ok p ∧
      ((∃ s, res = ComposerResult.single s ∧ s ≠ "") ∨
       (∃ l, res = ComposerResult.multi l ∧ (l.length = 2 ∨ l.length = 3) ∧
         (∀ m ∈ l, m ≠ "") ∧
         (l = [p.greetingFormatted, p.baseQuestion] ∨
          l = [p.greetingFormatted, p.baseQuestion ++ " " ++ p.followSentence] ∨
          l = [p.greetingFormatted, p.baseQuestion ++ " " ++ p.closing] ∨
          l = [p.greetingFormatted, p.baseQuestion, p.followSentence] ∨
          l = [pyStrip (p.greetingFormatted ++ " " ++ p.baseQuestionInline),
               p.followSentence]))) := by
  unfold randomize_text_message at h
  cases hcp : composeParts item_name tp r with
  | error e => rw [hcp] at h; cases h
  | ok p =>
    rw [hcp] at h
    simp only [] at h
    rw [Except.ok.injEq] at h
    subst h
    obtain ⟨hgf, hbq, hbqi, hfs⟩ := composeParts_ink hWF hcp
    have hgfne : p.greetingFormatted ≠ "" := ink_ne_empty hgf
    have hbqne : p.baseQuestion ≠ "" := ink_ne_empty hbq
    have hMne : pyStrip (p.greetingFormatted ++ " " ++ p.baseQuestionInline) ≠ "" :=
      ink_ne_empty (ink_pyStrip (ink_append_left (ink_append_left hgf)))
    refine ⟨p, rfl, ?_⟩
    unfold buildMessages
    by_cases hsg : r.splitGreeting
    · by_cases huf : p.followUp ≠ "" ∧ r.useFollowCoin = true
      · have hfsne : p.followSentence ≠ "" := ink_ne_empty (hfs huf.1)
        by_cases hsf : r.splitFollow
        · refine Or.inr ⟨[p.greetingFormatted, p.baseQuestion, p.followSentence],
            ?_, Or.inr rfl, ?_, ?_⟩
          · simp [hsg, huf, hsf, appendLast]
          · intro m hm
            simp only [List.mem_cons, List.not_mem_nil, or_false] at hm
            rcases hm with rfl | rfl | rfl
            exacts [hgfne, hbqne, hfsne]
          · tauto
        · refine Or.inr ⟨[p.greetingFormatted,
            p.baseQuestion ++ (" " ++ p.followSentence)], ?_, Or.inl rfl, ?_, ?_⟩
          · simp [hsg, huf, hsf, appendLast]
          · intro m hm
            simp only [List.mem_cons, List.not_mem_nil, or_false] at hm
            rcases hm with rfl | rfl
            exacts [hgfne, append_ne_empty_left hbqne]
          · rw [← String.append_assoc]
            tauto
      · by_cases hcl : p.closing ≠ "" ∧ r.closingOnlyCoin = true
        · refine Or.inr ⟨[p.greetingFormatted,
            p.baseQuestion ++ (" " ++ p.closing)], ?_, Or.inl rfl, ?_, ?_⟩
          · simp [hsg, huf, hcl, appendLast]
          · intro m hm
            simp only [List.mem_cons, List.not_mem_nil, or_false] at hm
            rcases hm with rfl | rfl
            exacts [hgfne, append_ne_empty_left hbqne]
          · rw [← String.append_assoc]
            tauto
        · refine Or.inr ⟨[p.greetingFormatted, p.baseQuestion],
            ?_, Or.inl rfl, ?_, Or.inl rfl⟩
          · simp [hsg, huf, hcl]
          · intro m hm
            simp only [List.mem_cons, List.not_mem_nil, or_false] at hm
            rcases hm with rfl | rfl
            exacts [hgfne, hbqne]
    · by_cases huf : p.followUp ≠ "" ∧ r.useFollowCoin = true
      · have hfsne : p.followSentence ≠ "" := ink_ne_empty (hfs huf.1)
        by_cases hsf : r.splitFollow
        · refine Or.inr ⟨[pyStrip (p.greetingFormatted ++ " " ++ p.baseQuestionInline),
            p.followSentence], ?_, Or.inl rfl, ?_, ?_⟩
          · simp [hsg, huf, hsf, appendLast]
          · intro m hm
            simp only [List.mem_cons, List.not_mem_nil, or_false] at hm
            rcases hm with rfl | rfl
            exacts [hMne, hfsne]
          · tauto
        · refine Or.inl ⟨pyStrip (p.greetingFormatted ++ " " ++ p.baseQuestionInline)
            ++ (" " ++ p.followSentence), ?_, append_ne_empty_left hMne⟩
          simp [hsg, huf, hsf, appendLast]
      · by_cases hcl : p.closing ≠ "" ∧ r.closingOnlyCoin = true
        · refine Or.inl ⟨pyStrip (p.greetingFormatted ++ " " ++ p.baseQuestionInline)
            ++ (" " ++ p.closing), ?_, append_ne_empty_left hMne⟩
          simp [hsg, huf, hcl, appendLast]
        · refine Or.inl ⟨pyStrip (p.greetingFormatted ++ " " ++ p.baseQuestionInline),
            ?_, hMne⟩
          simp [hsg, huf, hcl]

/-! ### Dispatch loop lemmas -/

/-- Recognise the cooldown pause in a trace. -/
def isCooldown : Event → Bool
  | Event.sleepCooldown _ _ _ => true
  | _ => false

/-- Recognise a send attempt in a trace. -/
def isAttempt : Event → Bool
  | Event.sendAttempt _ _ => true
  | _ => false

theorem runTargets_cons (ora : MailOracle) (pools : TextPools) (idx : Nat)
    (t : Target) (rest : List Target) (rows : List UsernameRow) :
    runTargets ora pools idx (t :: rest) rows =
      (match (processTarget ora pools rows idx t).err with
       | some e =>
         ((processTarget ora pools rows idx t).usernames,
          (processTarget ora pools rows idx t).events,
          (processTarget ora pools rows idx t).sentInc, some e)
       | none =>
         if (processTarget ora pools rows idx t).stop then
           ((processTarget ora pools rows idx t).usernames,
            (processTarget ora pools rows idx t).events,
            (processTarget ora pools rows idx t).sentInc, none)
         else
           ((runTargets ora pools (idx + 1) rest
               (processTarget ora pools rows idx t).usernames).1,
            (processTarget ora pools rows idx t).events ++
              (runTargets ora pools (idx + 1) rest
                (processTarget ora pools rows idx t).usernames).2.1,
            (processTarget ora pools rows idx t).sentInc +
              (runTargets ora pools (idx + 1) rest
                (processTarget ora pools rows idx t).usernames).2.2.1,
            (runTargets ora pools (idx + 1) rest
              (processTarget ora pools rows idx t).usernames).2.2.2)) := rfl

/-- The retry loop never emits a cooldown pause. -/
theorem attemptLoop_no_cooldown (o : Nat → SendOutcome) (jit : Nat → Nat)
    (idx : Nat) :
    ∀ fuel attempt, ∀ e ∈ (attemptLoop o jit idx fuel attempt).events,
      isCooldown e = false := by
  intro fuel
  induction fuel with
  | zero =>
    intro attempt e he
    simp [attemptLoop] at he
  | succ fuel ih =>
    intro attempt e he
    rw [attemptLoop.eq_def] at he
    simp only [] at he
    rcases ho : o (attempt + 1) with - | n | - | - | k | -
    all_goals rw [ho] at he
    · simp at he
      subst he
      rfl
    · simp at he
      rcases he with rfl | rfl <;> rfl
    · simp at he
      subst he
      rfl
    · simp at he
      subst he
      rfl
    · simp at he
      subst he
      rfl
    · rcases fuel with - | fuel2
      · simp at he
        subst he
        rfl
      · simp only [List.mem_cons] at he
        rcases he with rfl | rfl | hmem
        · rfl
        · rfl
        · exact ih _ e hmem

theorem processTarget_sentInc_le (ora : MailOracle) (pools : TextPools)
    (rows : List UsernameRow) (idx : Nat) (t : Target) :
    (processTarget ora pools rows idx t).sentInc ≤ 1 := by
  simp only [processTarget]
  split
  · simp
  · split
    · simp
    · split
      · simp
      · split
        · split <;> simp
        · split <;> simp

theorem runTargets_sent_le (ora : MailOracle) (pools : TextPools) :
    ∀ (ts : List Target) (idx : Nat) (rows : List UsernameRow),
      (runTargets ora pools idx ts rows).2.2.1 ≤ ts.length := by
  intro ts
  induction ts with
  | nil =>
    intro idx rows
    simp [runTargets]
  | cons t rest ih =>
    intro idx rows
    rw [runTargets_cons]
    have h1 := processTarget_sentInc_le ora pools rows idx t
    cases herr : (processTarget ora pools rows idx t).err with
    | some e =>
      simp only [herr, List.length_cons]
      omega
    | none =>
      by_cases hstop : (processTarget ora pools rows idx t).stop
      · simp only [herr, hstop, if_true, List.length_cons]
        omega
      · have h2 := ih (idx + 1) (processTarget ora pools rows idx t).usernames
        simp only [herr, hstop, if_false, List.length_cons, Bool.false_eq_true]
        omega

/-! ### The claims about the dispatch loop -/

/-- C10: for every recipient whose stored username, after stripping
whitespace and leading `@`, does not match `[A-Za-z0-9_]{5,32}`, the
loop body deletes that `Username` row (and only it) before composing
any message: it emits no event, makes no send attempt, does not stop
the batch and raises nothing. -/
theorem claim_C10 (ora : MailOracle) (pools : TextPools) (rows : List UsernameRow)
    (idx : Nat) (t : Target)
    (hv : _is_valid_username (_normalize_username t.username) = false) :
    processTarget ora pools rows idx t =
      { usernames := rows.filter (fun u => u.id ≠ t.id), events := [],
        sentInc := 0, stop := false, err := none } := by
  simp [processTarget, hv, deleteDb]

/-- C2: for every recipient whose send attempts raise an unclassified
error on all 3 attempts, the loop body deletes the recipient's row
(keeping exactly the rows with a different id, so the row is neither
marked sent nor left pending), counts no send, does not stop the batch,
and the trace shows the 3 attempts with two retry backoffs, followed
only by the parity-conditional cooldown. -/
theorem claim_C2 (ora : MailOracle) (pools : TextPools) (rows : List UsernameRow)
    (idx : Nat) (t : Target)
    (hv : _is_valid_username (_normalize_username t.username) = true)
    (hok : ∃ m, randomize_text_message t.item_name pools (ora.rand idx) = Except.ok m)
    (h1 : ora.outcome idx 1 = SendOutcome.unknown)
    (h2 : ora.outcome idx 2 = SendOutcome.unknown)
    (h3 : ora.outcome idx 3 = SendOutcome.unknown) :
    processTarget ora pools rows idx t =
      { usernames := rows.filter (fun u => u.id ≠ t.id),
        events := [Event.sleepBase idx 6 12,
          Event.sendAttempt idx 1, Event.sleepRetry idx 1,
          Event.sendAttempt idx 2, Event.sleepRetry idx 2,
          Event.sendAttempt idx 3] ++
          (if idx % cooldown_every = 0 then
            [Event.sleepCooldown idx cooldown_range.1 cooldown_range.2] else []),
        sentInc := 0, stop := false, err := none } := by
  obtain ⟨m, hm⟩ := hok
  have har : attemptLoop (ora.outcome idx) (ora.floodJit idx) idx max_send_attempts 0 =
      ⟨false, false, false, false,
        [Event.sendAttempt idx 1, Event.sleepRetry idx 1,
         Event.sendAttempt idx 2, Event.sleepRetry idx 2,
         Event.sendAttempt idx 3]⟩ := by
    simp [attemptLoop, max_send_attempts, h1, h2, h3]
  by_cases hidx : idx % cooldown_every = 0 <;>
    simp [processTarget, hv, hm, har, deleteDb, base_delay, hidx]

/-- C3: for every recipient whose first send attempt raises an
unreachable-kind error (privacy restricted, blocked, deactivated,
deactivated-ban or write forbidden), the loop body sets the row's
`sended` flag, makes exactly one send attempt, deletes nothing, counts
no send, and continues with the next recipient (no batch stop). -/
theorem claim_C3 (ora : MailOracle) (pools : TextPools) (rows : List UsernameRow)
    (idx : Nat) (t : Target) (k : UnreachableKind)
    (hv : _is_valid_username (_normalize_username t.username) = true)
    (hok : ∃ m, randomize_text_message t.item_name pools (ora.rand idx) = Except.ok m)
    (h1 : ora.outcome idx 1 = SendOutcome.unreachable k) :
    processTarget ora pools rows idx t =
      { usernames := rows.map
          (fun u => if u.id = t.id then { u with sended := true } else u),
        events := [Event.sleepBase idx 6 12, Event.sendAttempt idx 1],
        sentInc := 0, stop := false, err := none } := by
  obtain ⟨m, hm⟩ := hok
  have har : attemptLoop (ora.outcome idx) (ora.floodJit idx) idx max_send_attempts 0 =
      ⟨false, true, false, true, [Event.sendAttempt idx 1]⟩ := by
    simp [attemptLoop, max_send_attempts, h1]
  simp [processTarget, hv, hm, har, markSentDb, base_delay]

/-- C5: for every recipient whose send attempt raises a rate-limit
error carrying `n` seconds, the loop body sleeps `n` plus a jitter of
3 to 12 seconds (in particular positive), leaves the row list unchanged
(neither deleted nor marked sent), counts no send, makes no further
attempt in this invocation, and lets the loop move on (no stop, no
cooldown). -/
theorem claim_C5 (ora : MailOracle) (pools : TextPools) (rows : List UsernameRow)
    (idx : Nat) (t : Target) (n : Nat)
    (hv : _is_valid_username (_normalize_username t.username) = true)
    (hok : ∃ m, randomize_text_message t.item_name pools (ora.rand idx) = Except.ok m)
    (h1 : ora.outcome idx 1 = SendOutcome.floodWait n) :
    processTarget ora pools rows idx t =
      { usernames := rows,
        events := [Event.sleepBase idx 6 12, Event.sendAttempt idx 1,
          Event.sleepFlood idx n (jitterOf (ora.floodJit idx 1))],
        sentInc := 0, stop := false, err := none } ∧
    3 ≤ jitterOf (ora.floodJit idx 1) ∧ jitterOf (ora.floodJit idx 1) ≤ 12 := by
  obtain ⟨m, hm⟩ := hok
  have har : attemptLoop (ora.outcome idx) (ora.floodJit idx) idx max_send_attempts 0 =
      ⟨false, true, false, false,
        [Event.sendAttempt idx 1,
         Event.sleepFlood idx n (jitterOf (ora.floodJit idx 1))]⟩ := by
    simp [attemptLoop, max_send_attempts, h1]
  refine ⟨by simp [processTarget, hv, hm, har, base_delay], ?_, ?_⟩
  · simp [jitterOf]
  · have : ora.floodJit idx 1 % 10 < 10 := Nat.mod_lt _ (by omega)
    simp [jitterOf]
    omega

/-- C6: once a send attempt raises the global send ban (PeerFlood), the
dispatch loop makes no further send attempt to any recipient of the
invocation: the run over the remaining batch returns immediately with
the store unchanged, exactly one send attempt in the trace, and no
escaping exception. -/
theorem claim_C6 (ora : MailOracle) (pools : TextPools) (rows : List UsernameRow)
    (idx : Nat) (t : Target) (rest : List Target)
    (hv : _is_valid_username (_normalize_username t.username) = true)
    (hok : ∃ m, randomize_text_message t.item_name pools (ora.rand idx) = Except.ok m)
    (h1 : ora.outcome idx 1 = SendOutcome.peerFlood) :
    runTargets ora pools idx (t :: rest) rows =
      (rows, [Event.sleepBase idx 6 12, Event.sendAttempt idx 1], 0, none) := by
  obtain ⟨m, hm⟩ := hok
  have har : attemptLoop (ora.outcome idx) (ora.floodJit idx) idx max_send_attempts 0 =
      ⟨false, false, true, false, [Event.sendAttempt idx 1]⟩ := by
    simp [attemptLoop, max_send_attempts, h1]
  have hstep : processTarget ora pools rows idx t =
      { usernames := rows,
        events := [Event.sleepBase idx 6 12, Event.sendAttempt idx 1],
        sentInc := 0, stop := true, err := none } := by
    simp [processTarget, hv, hm, har, base_delay]
  rw [runTargets_cons, hstep]
  rfl

/-- C4: for an account that is started, connected and has texts
configured, when no pending `Username` row for the account exists,
`mailing` flips `is_started` to false and appends exactly one
`account_notification` Job row, leaving usernames, pools and everything
else unchanged, sending nothing and raising nothing. -/
theorem claim_C4 (ora : MailOracle) (db : MailDB)
    (hs : db.account.is_started = true) (hc : db.account.is_connected = true)
    (ht : db.textsConfigured = true)
    (hp : db.usernames.filter
        (fun u => u.sended = false && u.account_id == db.account.id) = []) :
    mailing ora db =
      { db := { db with
          account := { db.account with is_started := false },
          jobs := db.jobs ++
            [⟨db.account.id, "account_notification", _build_stop_payload db.account⟩] },
        events := [], sent := 0, err := none } := by
  have hsel : selectTargets db = [] := by
    unfold selectTargets
    rw [hp]
    simp
  unfold mailing
  rw [if_neg (by simp [hs, hc]), if_neg (by simp [ht]), if_pos (by simp [hsel])]
  simp [stopAndNotify]

/-- C8: in every invocation, the number of recipients selected is at
most the account's `batch_size`, and so is the number of successful
sends counted. -/
theorem claim_C8 (ora : MailOracle) (db : MailDB) :
    (selectTargets db).length ≤ db.account.batch_size ∧
    (mailing ora db).sent ≤ db.account.batch_size := by
  have hsel : (selectTargets db).length ≤ db.account.batch_size := by
    simp only [selectTargets, List.length_map]
    exact List.length_take_le _ _
  refine ⟨hsel, ?_⟩
  have hfin : ∀ (r : List UsernameRow × List Event × Nat × Option String),
      (mailingFinish db r).sent = r.2.2.1 := by
    intro r
    unfold mailingFinish
    cases r.2.2.2 with
    | some e => rfl
    | none =>
      by_cases hpend : pendingRemaining r.1 db.account.id = true
      · simp [hpend]
      · simp [hpend]
  have hrun := runTargets_sent_le ora db.pools (selectTargets db) 1 db.usernames
  unfold mailing
  split
  · simp
  · split
    · simp
    · split
      · simp
      · rw [hfin]
        exact le_trans hrun hsel

/-! ### Composer failure characterisation (C9) -/

/-- All five greeting pools are empty. -/
def AllGreetingsEmpty (tp : TextPools) : Prop :=
  tp.greetings_morning = [] ∧ tp.greetings_day = [] ∧ tp.greetings_evening = [] ∧
    tp.greetings_night = [] ∧ tp.greetings_anytime = []

instance : DecidablePred AllGreetingsEmpty := fun tp => by
  unfold AllGreetingsEmpty
  infer_instance

theorem pyOrPool_nil_iff {a b : List String} :
    pyOrPool a b = [] ↔ (a = [] ∧ b = []) := by
  unfold pyOrPool
  by_cases h : a.isEmpty
  · simp_all [List.isEmpty_iff]
  · simp_all [List.isEmpty_iff]

theorem greetingFallback_nil_iff {tp : TextPools} :
    greetingFallback tp = [] ↔ AllGreetingsEmpty tp := by
  unfold greetingFallback AllGreetingsEmpty
  rw [pyOrPool_nil_iff, pyOrPool_nil_iff, pyOrPool_nil_iff, pyOrPool_nil_iff]
  tauto

theorem basePoolFor_nil_of_all {hour : Nat} {tp : TextPools}
    (h : AllGreetingsEmpty tp) : basePoolFor hour tp = [] := by
  obtain ⟨h1, h2, h3, h4, h5⟩ := h
  unfold basePoolFor
  split
  · exact h1
  · split
    · exact h2
    · split
      · exact h3
      · exact h4

theorem greetingPoolOf_nil_iff {r : ComposerRand} {tp : TextPools} :
    greetingPoolOf r tp = [] ↔ AllGreetingsEmpty tp := by
  unfold greetingPoolOf
  simp only []
  constructor
  · intro h
    split at h
    · split at h
      · exact greetingFallback_nil_iff.mp h
      · next hne =>
        exact absurd (by rw [List.isEmpty_iff]; exact h) hne
    · split at h
      · exact greetingFallback_nil_iff.mp h
      · next hne =>
        exact absurd (by rw [List.isEmpty_iff]; exact h) hne
  · intro h
    have hfb : greetingFallback tp = [] := greetingFallback_nil_iff.mpr h
    have hbase : basePoolFor r.hour tp = [] := basePoolFor_nil_of_all h
    have hpool : (if r.mixAnytime = true ∧ ¬tp.greetings_anytime.isEmpty = true
        then basePoolFor r.hour tp ++ tp.greetings_anytime
        else pyOrPool (basePoolFor r.hour tp) tp.greetings_anytime) = [] := by
      split
      · rw [hbase, h.2.2.2.2]
        rfl
      · rw [pyOrPool_nil_iff]
        exact ⟨hbase, h.2.2.2.2⟩
    rw [hpool]
    simp [hfb]

theorem pick_greeting_error_iff {r : ComposerRand} {tp : TextPools} :
    (∃ e, _pick_greeting r tp = Except.error e) ↔ AllGreetingsEmpty tp := by
  unfold _pick_greeting
  by_cases h : (greetingPoolOf r tp).isEmpty = true
  · rw [if_pos h]
    simp only [List.isEmpty_iff] at h
    simp [greetingPoolOf_nil_iff.mp h]
  · rw [if_neg h]
    constructor
    · intro ⟨e, he⟩
      cases he
    · intro hall
      exact absurd (by rw [List.isEmpty_iff]; exact greetingPoolOf_nil_iff.mpr hall) h

theorem composeParts_error_iff {item_name : String} {tp : TextPools}
    {r : ComposerRand} :
    (∃ e, composeParts item_name tp r = Except.error e) ↔
      (AllGreetingsEmpty tp ∨ tp.clarifying_texts = [] ∨
       ∃ e, questionOf item_name tp r = Except.error e) := by
  constructor
  · intro ⟨e, he⟩
    unfold composeParts at he
    cases hg : _pick_greeting r tp with
    | error e2 => exact Or.inl (pick_greeting_error_iff.mp ⟨e2, hg⟩)
    | ok g =>
      rw [hg] at he
      simp only [] at he
      split at he
      · next hc => exact Or.inr (Or.inl (by simpa [List.isEmpty_iff] using hc))
      · cases hq : questionOf item_name tp r with
        | error e3 => exact Or.inr (Or.inr ⟨e3, rfl⟩)
        | ok q =>
          rw [hq] at he
          simp only [] at he
          cases he
  · intro h
    cases hg : _pick_greeting r tp with
    | error e2 =>
      refine ⟨e2, ?_⟩
      unfold composeParts
      rw [hg]
    | ok g =>
      have hng : ¬AllGreetingsEmpty tp := by
        intro hall
        obtain ⟨e3, he3⟩ := pick_greeting_error_iff.mpr hall
        rw [hg] at he3
        cases he3
      by_cases hclar : tp.clarifying_texts = []
      · refine ⟨"В AccountTexts нет уточняющих текстов.", ?_⟩
        unfold composeParts
        rw [hg]
        simp [hclar]
      · have hqerr : ∃ e, questionOf item_name tp r = Except.error e := by
          rcases h with h | h | h
          · exact absurd h hng
          · exact absurd h hclar
          · exact h
        obtain ⟨e3, he3⟩ := hqerr
        refine ⟨e3, ?_⟩
        unfold composeParts
        rw [hg]
        simp only []
        rw [if_neg (by simpa [List.isEmpty_iff] using hclar), he3]

theorem randomize_error_iff {item_name : String} {tp : TextPools} {r : ComposerRand} :
    (∃ e, randomize_text_message item_name tp r = Except.error e) ↔
      (∃ e, composeParts item_name tp r = Except.error e) := by
  unfold randomize_text_message
  cases hcp : composeParts item_name tp r with
  | error e => simp
  | ok p => simp

/-- A composer failure escapes `runTargets` as soon as the batch
reaches any recipient with a valid username. -/
theorem runTargets_err_of_bad_pools {tp : TextPools} (ora : MailOracle)
    (hbad : tp.clarifying_texts = [] ∨ AllGreetingsEmpty tp) :
    ∀ (ts : List Target) (idx : Nat) (rows : List UsernameRow),
      (∃ t ∈ ts, _is_valid_username (_normalize_username t.username) = true) →
      (runTargets ora tp idx ts rows).2.2.2.isSome = true := by
  intro ts
  induction ts with
  | nil =>
    intro idx rows hex
    simp at hex
  | cons t rest ih =>
    intro idx rows hex
    by_cases hv : _is_valid_username (_normalize_username t.username) = true
    · have hbadc : ∃ e, composeParts t.item_name tp (ora.rand idx) = Except.error e :=
        (@composeParts_error_iff t.item_name tp (ora.rand idx)).mpr
          (hbad.elim (fun h2 => Or.inr (Or.inl h2)) Or.inl)
      obtain ⟨e, he⟩ := (@randomize_error_iff t.item_name tp (ora.rand idx)).mpr hbadc
      have hstep : (processTarget ora tp rows idx t).err = some e := by
        simp [processTarget, hv, he]
      rw [runTargets_cons, hstep]
      simp
    · have hv2 : _is_valid_username (_normalize_username t.username) = false := by
        simpa using hv
      have hstep : processTarget ora tp rows idx t =
          { usernames := deleteDb rows t.id, events := [], sentInc := 0,
            stop := false, err := none } := by
        simp [processTarget, hv2]
      rw [runTargets_cons, hstep]
      simp only []
      apply ih
      obtain ⟨t2, ht2, hvt2⟩ := hex
      rcases List.mem_cons.mp ht2 with rfl | hmem
      · exact absurd hvt2 hv
      · exact ⟨t2, hmem, hvt2⟩

/-- When every clarifying template is format-well-formed, the chosen
template formats successfully (an empty pool picks `""`, which formats
to `""`). -/
theorem questionOf_ok_of_templateWF {item_name : String} {tp : TextPools}
    {r : ComposerRand}
    (hT : ∀ t ∈ tp.clarifying_texts, TemplateWF t.data = true) :
    ∃ q, questionOf item_name tp r = Except.ok q := by
  unfold questionOf
  by_cases hc : tp.clarifying_texts.isEmpty = true
  · have hup : pickFrom tp.clarifying_texts r.questionIdx = "" := by
      rw [List.isEmpty_iff] at hc
      simp [pickFrom, hc]
    rw [hup]
    exact pyFormat_ok_of_WF _ (by decide)
  · exact pyFormat_ok_of_WF _ (hT _ (pickFrom_mem (by simpa using hc) _))

/-- C9 (amended: `str.format` itself raises on malformed templates, so
the characterisation holds for well-formed ones). For pools as built by
`build_text_pools` (non-empty stripped entries) all of whose clarifying
templates are format-well-formed (braces occur only as the `{item}`
placeholder or the doubled-brace escapes), `randomize_text_message`
raises exactly when no templates are configured — the clarifying pool
is empty or all five greeting pools are empty — and returns normally
otherwise; under the same hypotheses the string the source indexes at
`base_question[0]` is non-empty, so no further failure hides there; and
a no-templates failure escapes the dispatch loop (fatal for the
account's run) as soon as the batch reaches a recipient with a valid
username. -/
theorem claim_C9 (item_name : String) (tp : TextPools) (r : ComposerRand)
    (hWF : PoolsWF tp)
    (hT : ∀ t ∈ tp.clarifying_texts, TemplateWF t.data = true) :
    ((∃ e, randomize_text_message item_name tp r = Except.error e) ↔
      (tp.clarifying_texts = [] ∨ AllGreetingsEmpty tp)) ∧
    (∀ p, composeParts item_name tp r = Except.ok p → p.baseQuestion ≠ "") ∧
    (∀ (ora : MailOracle) (ts : List Target) (idx : Nat) (rows : List UsernameRow),
      (tp.clarifying_texts = [] ∨ AllGreetingsEmpty tp) →
      (∃ t ∈ ts, _is_valid_username (_normalize_username t.username) = true) →
      (runTargets ora tp idx ts rows).2.2.2.isSome = true) := by
  refine ⟨?_, ?_, ?_⟩
  · rw [@randomize_error_iff item_name tp r, @composeParts_error_iff item_name tp r]
    constructor
    · intro h
      rcases h with h | h | h
      · exact Or.inr h
      · exact Or.inl h
      · obtain ⟨q, hq⟩ := @questionOf_ok_of_templateWF item_name tp r hT
        obtain ⟨e, he⟩ := h
        rw [hq] at he
        cases he
    · intro h
      rcases h with h | h
      · exact Or.inr (Or.inl h)
      · exact Or.inl h
  · intro p hp
    exact ink_ne_empty (composeParts_ink hWF hp).2.1
  · intro ora ts idx rows hbad hex
    exact runTargets_err_of_bad_pools ora hbad ts idx rows hex

/-- C7 (amended: the cooldown is skipped for recipients that are
dropped early). In the loop body, a cooldown pause appears iff the
batch position is a multiple of `cooldown_every` (2) and the recipient
ran to completion: valid username, composition succeeded, no batch
stop, and not the flood-wait/unreachable skip path. Every cooldown
drawn is from the 45-120 second range, above the 6-12 second base
delay. -/
theorem claim_C7 (ora : MailOracle) (pools : TextPools) (rows : List UsernameRow)
    (idx : Nat) (t : Target) :
    ((processTarget ora pools rows idx t).events.any isCooldown = true ↔
      (_is_valid_username (_normalize_username t.username) = true ∧
       (∃ m, randomize_text_message t.item_name pools (ora.rand idx) = Except.ok m) ∧
       (attemptLoop (ora.outcome idx) (ora.floodJit idx) idx
          max_send_attempts 0).stopMailing = false ∧
       ¬((attemptLoop (ora.outcome idx) (ora.floodJit idx) idx
            max_send_attempts 0).skipDeletion = true ∧
         (attemptLoop (ora.outcome idx) (ora.floodJit idx) idx
            max_send_attempts 0).success = false) ∧
       idx % cooldown_every = 0)) ∧
    ((processTarget ora pools rows idx t).events.filter isCooldown).all
      (fun e => e == Event.sleepCooldown idx cooldown_range.1 cooldown_range.2) = true ∧
    base_delay.2 < cooldown_range.1 := by
  have hnc := attemptLoop_no_cooldown (ora.outcome idx) (ora.floodJit idx) idx
    max_send_attempts 0
  have hanyar : (attemptLoop (ora.outcome idx) (ora.floodJit idx) idx
      max_send_attempts 0).events.any isCooldown = false := by
    rw [List.any_eq_false]
    intro e he
    simpa using hnc e he
  have hfilar : (attemptLoop (ora.outcome idx) (ora.floodJit idx) idx
      max_send_attempts 0).events.filter isCooldown = [] := by
    rw [List.filter_eq_nil_iff]
    intro e he
    simpa using hnc e he
  by_cases hv : _is_valid_username (_normalize_username t.username) = true
  · cases hcomp : randomize_text_message t.item_name pools (ora.rand idx) with
    | error e =>
      have hpt : processTarget ora pools rows idx t =
          { usernames := rows, events := [], sentInc := 0, stop := false,
            err := some e } := by
        simp [processTarget, hv, hcomp]
      rw [hpt]
      refine ⟨?_, by simp, by decide⟩
      simp only [List.any_nil]
      constructor
      · intro h
        cases h
      · rintro ⟨-, ⟨m, hm⟩, -⟩
        cases hm
    | ok m =>
      by_cases hstop : (attemptLoop (ora.outcome idx) (ora.floodJit idx) idx
          max_send_attempts 0).stopMailing = true
      · have hpt : (processTarget ora pools rows idx t).events =
            Event.sleepBase idx 6 12 ::
              (attemptLoop (ora.outcome idx) (ora.floodJit idx) idx
                max_send_attempts 0).events := by
          simp [processTarget, hv, hcomp, hstop, base_delay]
        rw [hpt]
        refine ⟨?_, ?_, by decide⟩
        · simp only [List.any_cons, hanyar, isCooldown, Bool.or_false]
          constructor
          · intro h
            cases h
          · rintro ⟨-, -, hns, -⟩
            rw [hstop] at hns
            cases hns
        · simp [List.filter_cons, hfilar, isCooldown]
      · by_cases hskip :
            ((attemptLoop (ora.outcome idx) (ora.floodJit idx) idx
                max_send_attempts 0).skipDeletion = true ∧
             (attemptLoop (ora.outcome idx) (ora.floodJit idx) idx
                max_send_attempts 0).success = false)
        · have hpt : (processTarget ora pools rows idx t).events =
              Event.sleepBase idx 6 12 ::
                (attemptLoop (ora.outcome idx) (ora.floodJit idx) idx
                  max_send_attempts 0).events := by
            simp [processTarget, hv, hcomp, hstop, hskip, base_delay]
          rw [hpt]
          refine ⟨?_, ?_, by decide⟩
          · simp only [List.any_cons, hanyar, isCooldown, Bool.or_false]
            constructor
            · intro h
              cases h
            · rintro ⟨-, -, -, hns, -⟩
              exact absurd hskip hns
          · simp [List.filter_cons, hfilar, isCooldown]
        · have hpt : (processTarget ora pools rows idx t).events =
              Event.sleepBase idx 6 12 ::
                ((attemptLoop (ora.outcome idx) (ora.floodJit idx) idx
                  max_send_attempts 0).events ++
                 (if idx % cooldown_every = 0 then
                   [Event.sleepCooldown idx cooldown_range.1 cooldown_range.2]
                  else [])) := by
            simp [processTarget, hv, hcomp, hstop, hskip, base_delay]
          rw [hpt]
          by_cases hidx : idx % cooldown_every = 0
          · refine ⟨⟨fun hany => ?_, fun h2 => ?_⟩, ?_, by decide⟩
            · refine ⟨hv, ⟨m, rfl⟩, ?_, hskip, hidx⟩
              simpa using hstop
            · simp [hidx, isCooldown, hanyar]
            · simp [List.filter_cons, List.filter_append, hfilar, isCooldown, hidx]
          · refine ⟨⟨fun hany => ?_, fun h2 => ?_⟩, ?_, by decide⟩
            · exfalso
              simp [hidx, isCooldown, hanyar] at hany
            · exact absurd h2.2.2.2.2 hidx
            · simp [List.filter_cons, List.filter_append, hfilar, isCooldown, hidx]
  · have hv2 : _is_valid_username (_normalize_username t.username) = false := by
      simpa using hv
    have hpt : processTarget ora pools rows idx t =
        { usernames := deleteDb rows t.id, events := [], sentInc := 0,
          stop := false, err := none } := by
      simp [processTarget, hv2]
    rw [hpt]
    refine ⟨?_, by simp, by decide⟩
    simp only [List.any_nil]
    constructor
    · intro h
      cases h
    · rintro ⟨hvt, -⟩
      exact absurd hvt hv

/-! ### Concrete fixtures for counterexamples and witnesses -/

/-- Pools as `build_text_pools` would produce them. -/
def samplePools : TextPools :=
  { greetings_morning := ["доброе утро"], greetings_day := ["добрый день"],
    greetings_evening := ["добрый вечер"], greetings_night := ["доброй ночи"],
    greetings_anytime := ["здравствуйте"],
    clarifying_texts := ["подскажите, {item} ещё продаётся?"],
    follow_up_texts := ["буду благодарна за ответ"],
    lead_in_texts := ["хочу спросить:"], closing_texts := ["хорошего дня"] }

/-- A daytime draw that splits the greeting and the follow-up. -/
def sampleRand : ComposerRand :=
  { hour := 14, mixAnytime := false, greetIdx := 0, greetPunct := 1,
    leadInIdx := 0, questionIdx := 0, followIdx := 0, closingIdx := 0,
    closingPunctCoin := true, followPunctCoin := false, splitGreeting := true,
    useFollowCoin := true, splitFollow := true, closingOnlyCoin := false }

def sampleAccount : AccountRow :=
  { id := 7, name := "acc", phone := "", is_started := true,
    is_connected := true, batch_size := 5 }

def sampleTarget : Target := { id := 1, username := "alice_1", item_name := "Шуба" }

def sampleRow : UsernameRow :=
  { id := 1, account_id := 7, username := "alice_1", item_name := "Шуба",
    sended := false }

def unknownOracle : MailOracle :=
  { outcome := fun _ _ => SendOutcome.unknown, floodJit := fun _ _ => 0,
    rand := fun _ => sampleRand }

def unreachableOracle : MailOracle :=
  { outcome := fun _ _ => SendOutcome.unreachable UnreachableKind.blocked,
    floodJit := fun _ _ => 0, rand := fun _ => sampleRand }

def floodOracle : MailOracle :=
  { outcome := fun _ _ => SendOutcome.floodWait 30, floodJit := fun _ _ => 4,
    rand := fun _ => sampleRand }

def peerFloodOracle : MailOracle :=
  { outcome := fun _ _ => SendOutcome.peerFlood, floodJit := fun _ _ => 0,
    rand := fun _ => sampleRand }

/-- Sends succeed except for recipient 2, which is rate-limited. -/
def floodSecondOracle : MailOracle :=
  { outcome := fun idx _ =>
      if idx = 2 then SendOutcome.floodWait 30 else SendOutcome.success,
    floodJit := fun _ _ => 0, rand := fun _ => sampleRand }

/-- Three pending recipients of account 7. -/
def threeRowDb : MailDB :=
  { account := sampleAccount,
    usernames := [⟨1, 7, "alice_1", "Шуба", false⟩,
                  ⟨2, 7, "bob_22", "Куртка", false⟩,
                  ⟨3, 7, "carol33", "Плед", false⟩],
    jobs := [], textsConfigured := true, pools := samplePools }

/-- Account 7 with no pending rows left. -/
def emptyPendingDb : MailDB :=
  { account := sampleAccount,
    usernames := [⟨3, 7, "bob_22", "Куртка", true⟩],
    jobs := [], textsConfigured := true, pools := samplePools }

/-- Pools legitimately built by `build_text_pools` (non-empty, stripped)
whose clarifying template holds the foreign field `x`:
`str.format(item=...)` raises KeyError on it. -/
def badFormatPools : TextPools :=
  { samplePools with clarifying_texts := ["вы продаёте {x}?"] }

/-- C1 counterexample: on legitimate pools and a reachable draw the
composer returns a list of 3 strings, refuting "a list of strings of
length exactly 2". -/
theorem claim_C1_cex :
    PoolsWF samplePools ∧
    (randomize_text_message "Куртка" samplePools sampleRand).toOption =
      some (ComposerResult.multi
        ["Добрый день!", "Подскажите, Куртка ещё продаётся?",
         "Буду благодарна за ответ Хорошего дня."]) := by
  constructor
  · decide
  · decide

/-- C7 counterexample: recipient 2 hits a rate limit, so the loop
`continue`s past the cooldown; three recipients are processed and not a
single cooldown pause occurs, refuting "after every 2 processed
recipients a cooldown pause is inserted". -/
theorem claim_C7_cex :
    (∀ e ∈ (mailing floodSecondOracle threeRowDb).events, isCooldown e = false) ∧
    Event.sendAttempt 2 1 ∈ (mailing floodSecondOracle threeRowDb).events ∧
    Event.sendAttempt 3 1 ∈ (mailing floodSecondOracle threeRowDb).events := by
  decide

/-- C9 counterexample: on these pools at least one greeting pool and
the clarifying pool are non-empty, yet the composer raises —
`str.format` fails with KeyError on the foreign `{x}` field of the
stored template — refuting "for every input where at least one greeting
pool and the clarifying pool are non-empty it returns normally". -/
theorem claim_C9_cex :
    PoolsWF badFormatPools ∧
    badFormatPools.clarifying_texts ≠ [] ∧
    ¬AllGreetingsEmpty badFormatPools ∧
    (randomize_text_message "Куртка" badFormatPools sampleRand).toOption = none := by
  refine ⟨by decide, by decide, by decide, by decide⟩

/-! ### Witnesses -/

/-- C1 witness: the amended theorem applied to the sample pools and a
3-way splitting draw. -/
theorem claim_C1_witness :
    ∃ p, composeParts "Куртка" samplePools sampleRand = Except.ok p ∧
      ((∃ s, ComposerResult.multi
          ["Добрый день!", "Подскажите, Куртка ещё продаётся?",
           "Буду благодарна за ответ Хорошего дня."] = ComposerResult.single s ∧
          s ≠ "") ∨
       (∃ l, ComposerResult.multi
          ["Добрый день!", "Подскажите, Куртка ещё продаётся?",
           "Буду благодарна за ответ Хорошего дня."] = ComposerResult.multi l ∧
         (l.length = 2 ∨ l.length = 3) ∧
         (∀ m ∈ l, m ≠ "") ∧
         (l = [p.greetingFormatted, p.baseQuestion] ∨
          l = [p.greetingFormatted, p.baseQuestion ++ " " ++ p.followSentence] ∨
          l = [p.greetingFormatted, p.baseQuestion ++ " " ++ p.closing] ∨
          l = [p.greetingFormatted, p.baseQuestion, p.followSentence] ∨
          l = [pyStrip (p.greetingFormatted ++ " " ++ p.baseQuestionInline),
               p.followSentence]))) :=
  claim_C1 (by decide) rfl

/-- C2 witness: three unknown errors on a valid recipient delete its row. -/
theorem claim_C2_witness :
    processTarget unknownOracle samplePools [sampleRow] 1 sampleTarget =
      { usernames := [sampleRow].filter (fun u => u.id ≠ sampleTarget.id),
        events := [Event.sleepBase 1 6 12,
          Event.sendAttempt 1 1, Event.sleepRetry 1 1,
          Event.sendAttempt 1 2, Event.sleepRetry 1 2,
          Event.sendAttempt 1 3] ++
          (if 1 % cooldown_every = 0 then
            [Event.sleepCooldown 1 cooldown_range.1 cooldown_range.2] else []),
        sentInc := 0, stop := false, err := none } :=
  claim_C2 unknownOracle samplePools [sampleRow] 1 sampleTarget (by decide)
    ⟨_, rfl⟩ rfl rfl rfl

/-- C3 witness: one blocked-recipient error marks the row sent. -/
theorem claim_C3_witness :
    processTarget unreachableOracle samplePools [sampleRow] 1 sampleTarget =
      { usernames := [sampleRow].map
          (fun u => if u.id = sampleTarget.id then { u with sended := true } else u),
        events := [Event.sleepBase 1 6 12, Event.sendAttempt 1 1],
        sentInc := 0, stop := false, err := none } :=
  claim_C3 unreachableOracle samplePools [sampleRow] 1 sampleTarget
    UnreachableKind.blocked (by decide) ⟨_, rfl⟩ rfl

/-- C4 witness: an account with no pending rows is stopped and notified. -/
theorem claim_C4_witness :
    mailing unknownOracle emptyPendingDb =
      { db := { emptyPendingDb with
          account := { emptyPendingDb.account with is_started := false },
          jobs := emptyPendingDb.jobs ++
            [⟨emptyPendingDb.account.id, "account_notification",
              _build_stop_payload emptyPendingDb.account⟩] },
        events := [], sent := 0, err := none } :=
  claim_C4 unknownOracle emptyPendingDb rfl rfl rfl (by decide)

/-- C5 witness: a 30-second rate limit leaves the row pending and the
jitter is within 3-12. -/
theorem claim_C5_witness :
    processTarget floodOracle samplePools [sampleRow] 1 sampleTarget =
      { usernames := [sampleRow],
        events := [Event.sleepBase 1 6 12, Event.sendAttempt 1 1,
          Event.sleepFlood 1 30 (jitterOf (floodOracle.floodJit 1 1))],
        sentInc := 0, stop := false, err := none } ∧
    3 ≤ jitterOf (floodOracle.floodJit 1 1) ∧
    jitterOf (floodOracle.floodJit 1 1) ≤ 12 :=
  claim_C5 floodOracle samplePools [sampleRow] 1 sampleTarget 30 (by decide)
    ⟨_, rfl⟩ rfl

/-- C6 witness: a PeerFlood on the first recipient stops the whole
batch before the second recipient. -/
theorem claim_C6_witness :
    runTargets peerFloodOracle samplePools 1
        [sampleTarget, ⟨2, "bob_22", "Куртка"⟩] [sampleRow] =
      ([sampleRow], [Event.sleepBase 1 6 12, Event.sendAttempt 1 1], 0, none) :=
  claim_C6 peerFloodOracle samplePools [sampleRow] 1 sampleTarget
    [⟨2, "bob_22", "Куртка"⟩] (by decide) ⟨_, rfl⟩ rfl

/-- C9 witness: the amended theorem applied to the sample pools, whose
single clarifying template is format-well-formed. -/
theorem claim_C9_witness :
    ((∃ e, randomize_text_message "Куртка" samplePools sampleRand = Except.error e) ↔
      (samplePools.clarifying_texts = [] ∨ AllGreetingsEmpty samplePools)) ∧
    (∀ p, composeParts "Куртка" samplePools sampleRand = Except.ok p →
      p.baseQuestion ≠ "") ∧
    (∀ (ora : MailOracle) (ts : List Target) (idx : Nat) (rows : List UsernameRow),
      (samplePools.clarifying_texts = [] ∨ AllGreetingsEmpty samplePools) →
      (∃ t ∈ ts, _is_valid_username (_normalize_username t.username) = true) →
      (runTargets ora samplePools idx ts rows).2.2.2.isSome = true) :=
  claim_C9 "Куртка" samplePools sampleRand (by decide) (by decide)

/-- A recipient whose username normalises to `ab` (too short). -/
def invalidTarget : Target := { id := 2, username := "@ab", item_name := "Плед" }

/-- C10 witness: the malformed username is deleted with no attempt. -/
theorem claim_C10_witness :
    processTarget unknownOracle samplePools [sampleRow] 1 invalidTarget =
      { usernames := [sampleRow].filter (fun u => u.id ≠ invalidTarget.id),
        events := [], sentInc := 0, stop := false, err := none } :=
  claim_C10 unknownOracle samplePools [sampleRow] 1 invalidTarget (by decide)

end WB
